import Mathlib

/-!
Verification of the document-ingestion pipeline and the legacy garbage collector of a
full-text search engine (RediSearch C++ slice).  The definitions below are a shallow
embedding of `src/document.c` and `src/legacy_gc.c`; machine doubles are modelled over `ℚ`,
host-side collaborators (RedisModule, tokenizer, tag index, QueryError) are modelled from
the specification where the slice does not contain them, and each such definition says so
in its doc comment.
-/

namespace RediSearch

/-- Error codes surfaced to callers (spec §6; `QUERY_E...` constants used in the slice). -/
inductive QueryErrorCode where
  | OK
  | EGENERIC
  | EDUPFIELD
  | EUNSUPPTYPE
  | ENOTNUMERIC
  | EGEOFORMAT
  | ENODOC
  | EINVAL
deriving Repr, DecidableEq

/-- Error state carried on an ingest context (`QueryError`, declared outside the slice). -/
structure QueryError where
  code : QueryErrorCode
  detail : Option String
deriving Repr, DecidableEq

/-- Modelled from the spec: `QueryError::SetCode` is declared outside the slice; spec §7
states that preprocessor-specific codes are preserved by the outer pipeline, the setter
checking-and-skipping when a code is already set. -/
def QueryError.SetCode (st : QueryError) (c : QueryErrorCode) : QueryError :=
  if st.code = QueryErrorCode.OK then { st with code := c } else st

/-- Modelled from the spec: `QueryError::SetErrorFmt` (outside the slice) records a code
together with a formatted message, again only when no code is set yet (spec §7). -/
def QueryError.SetErrorFmt (st : QueryError) (c : QueryErrorCode) (msg : String) : QueryError :=
  if st.code = QueryErrorCode.OK then { code := c, detail := some msg } else st

/-- Modelled from the spec: `QueryError::ClearError` resets the error state. -/
def QueryError.ClearError (_st : QueryError) : QueryError :=
  { code := QueryErrorCode.OK, detail := none }

/-- A tagged sortable value, `{STR(bytes) | NUM(f64)}` (spec §3, SortingVector). -/
inductive RSSortable where
  | str (s : String)
  | num (v : ℚ)
deriving Repr, DecidableEq

/-- Fixed-length array of sortable slots indexed by `sortIdx` (spec §3). -/
structure RSSortingVector where
  values : List (Option RSSortable)
deriving Repr, DecidableEq

/-- Constructor `RSSortingVector(len)`: all slots initially unset. -/
def RSSortingVector.new (len : Nat) : RSSortingVector :=
  ⟨List.replicate len none⟩

/-- `RSSortingVector::Put(idx, value, type)`: write one slot. -/
def RSSortingVector.Put (sv : RSSortingVector) (idx : Nat) (v : RSSortable) : RSSortingVector :=
  ⟨sv.values.set idx (some v)⟩

/-- Read one slot of the sort vector back (spec §8, round-trip property). -/
def RSSortingVector.Get (sv : RSSortingVector) (idx : Nat) : Option RSSortable :=
  sv.values.getD idx none

/-- Field-type bit `INDEXFLD_T_FULLTEXT`. -/
def INDEXFLD_T_FULLTEXT : Nat := 1
/-- Field-type bit `INDEXFLD_T_NUMERIC`. -/
def INDEXFLD_T_NUMERIC : Nat := 2
/-- Field-type bit `INDEXFLD_T_GEO`. -/
def INDEXFLD_T_GEO : Nat := 4
/-- Field-type bit `INDEXFLD_T_TAG`. -/
def INDEXFLD_T_TAG : Nat := 8

/-- A document field `{ name, text, indexAs }` (spec §3).  `text = none` models a NULL
text pointer. -/
structure DocumentField where
  name : String
  text : Option String
  indexAs : Nat
deriving Repr, DecidableEq

/-- `DocumentField::CheckIdx(t)`: test a type bit on the field's `indexAs` mask. -/
def DocumentField.CheckIdx (f : DocumentField) (t : Nat) : Bool :=
  (f.indexAs &&& t) != 0

/-- Schema entry for one field (spec §3).  The `SORTABLE` / `NOINDEX` option bits are
stored as booleans (`spec.h` is outside the slice); members consumed only by the
tokenizer / forward-index collaborators (`ftId`, `ftWeight`) are omitted. -/
structure FieldSpec where
  name : String
  index : Nat
  types : Nat
  sortable : Bool
  noIndex : Bool
  sortIdx : Nat
  tagSep : Char
  tagFlags : Nat
deriving Repr, DecidableEq

/-- `FieldSpec::IsSortable()`. -/
def FieldSpec.IsSortable (fs : FieldSpec) : Bool := fs.sortable

/-- `FieldSpec::IsIndexable()`: set unless the field is `SORTABLE NOINDEX`. -/
def FieldSpec.IsIndexable (fs : FieldSpec) : Bool := !fs.noIndex

/-- The empty `FieldSpec` emplaced for skipped fields (`fspecs.emplace_back(0)`);
`AddToIndexes` recognises it by its empty name. -/
def emptyFieldSpec : FieldSpec :=
  { name := "", index := 0, types := 0, sortable := false, noIndex := false,
    sortIdx := 0, tagSep := ',', tagFlags := 0 }

/-- A document: the members not touched by the verified slice (key, id, score, payload,
language) are omitted. -/
structure Document where
  fields : List DocumentField
deriving Repr, DecidableEq

/-- Index schema: ordered field specs plus the length of the sortable-field table
(`sp->sortables->len`). -/
structure IndexSpec where
  fields : List FieldSpec
  sortablesLen : Nat
deriving Repr, DecidableEq

/-- Modelled from the spec: `IndexSpec::GetField` (outside the slice) resolves a
`FieldSpec` by name.  The host folds case when comparing names; the claims are
insensitive to that folding, so name comparison is modelled as plain equality. -/
def IndexSpec.GetField (sp : IndexSpec) (n : String) : Option FieldSpec :=
  sp.fields.find? (fun fs => fs.name == n)

/-- Per-field indexer scratch data (`FieldIndexerData`): the numeric value, the two geo
halves, and the parsed tag collection. -/
structure FieldIndexerData where
  numeric : ℚ
  geoSlon : String
  geoSlat : String
  tags : Option (List String)
deriving Repr, DecidableEq

instance : Inhabited FieldIndexerData :=
  ⟨{ numeric := 0, geoSlon := "", geoSlat := "", tags := none }⟩

/-- Ingest-context state flags (`ACTX_F_...`), one boolean per bit. -/
structure StateFlags where
  indexables : Bool
  textindexed : Bool
  otherindexed : Bool
  sortables : Bool
  empty : Bool
deriving Repr, DecidableEq

/-- The three clears at the top of `AddDocumentCtx::SetDocument` (document.c lines
24-26). -/
def StateFlags.clearIndexFlags (s : StateFlags) : StateFlags :=
  { s with indexables := false, textindexed := false, otherindexed := false }

/-- Ingest context (`AddDocumentCtx`): the members the verified slice reads or writes.
Host-client plumbing (blocked client, forward index, tokenizer, byte offsets) is outside
the slice. -/
structure AddDocumentCtx where
  stateFlags : StateFlags
  status : QueryError
  sv : Option RSSortingVector
  docFlagsOnDemandDeletable : Bool
  fspecs : List FieldSpec
  fdatas : List FieldIndexerData
  doc : Document
deriving Repr, DecidableEq

/-- Outcome of the per-field loop of `SetDocument`: either the accumulated
classification of every field, or the error that aborted the loop together with the
side effects of the already-processed prefix (emplaced specs, `SORTABLES` and geo
`docFlags` contributions). -/
inductive SetDocLoopRes where
  | ok (fspecs : List FieldSpec) (outFields : List DocumentField) (numTextIndexable : Nat)
      (hasTextFields : Bool) (hasOtherFields : Bool) (sortables : Bool) (geoDeletable : Bool)
  | err (code : QueryErrorCode) (msg : String) (fspecs : List FieldSpec)
      (sortables : Bool) (geoDeletable : Bool)
deriving Repr, DecidableEq

/-- Contribution of a skipped field (unknown name or NULL text, document.c lines 48-51):
an empty spec is emplaced and the field is left untouched. -/
def SetDocLoopRes.prependSkipped (f : DocumentField) : SetDocLoopRes → SetDocLoopRes
  | SetDocLoopRes.ok fsp out nt ht ho so geo =>
      SetDocLoopRes.ok (emptyFieldSpec :: fsp) (f :: out) nt ht ho so geo
  | SetDocLoopRes.err c m fsp so geo =>
      SetDocLoopRes.err c m (emptyFieldSpec :: fsp) so geo

/-- Contribution of a resolved field that passed the dedupe and type checks
(document.c lines 53-92). -/
def SetDocLoopRes.prependResolved (fs : FieldSpec) (f1 : DocumentField)
    (isText isOther isSort isGeo : Bool) : SetDocLoopRes → SetDocLoopRes
  | SetDocLoopRes.ok fsp out nt ht ho so geo =>
      SetDocLoopRes.ok (fs :: fsp) (f1 :: out) ((if isText then 1 else 0) + nt)
        (isText || ht) (isOther || ho) (isSort || so) (isGeo || geo)
  | SetDocLoopRes.err c m fsp so geo =>
      SetDocLoopRes.err c m (fs :: fsp) (isSort || so) (isGeo || geo)

/-- The per-field loop of `AddDocumentCtx::SetDocument` (document.c lines 45-93):
resolve each field against the schema, dedupe on `FieldSpec.index`, resolve / verify
`indexAs`, and classify the field as text / other / sortable / geo.  `dedupe` is the
bit-set of already-claimed `FieldSpec.index` values. -/
def AddDocumentCtx.setDocLoop (sp : IndexSpec) (dedupe : List Nat) :
    List DocumentField → SetDocLoopRes
  | [] => SetDocLoopRes.ok [] [] 0 false false false false
  | f :: rest =>
    match sp.GetField f.name, f.text with
    | some fs, some _ =>
      if fs.index ∈ dedupe then
        SetDocLoopRes.err QueryErrorCode.EDUPFIELD
          ("Tried to insert `" ++ fs.name ++ "` twice") [fs] false false
      else
        let f1 := if f.indexAs = 0 then { f with indexAs := fs.types } else f
        if f.indexAs ≠ 0 ∧ f.indexAs &&& fs.types ≠ f.indexAs then
          SetDocLoopRes.err QueryErrorCode.EUNSUPPTYPE
            ("Tried to index field " ++ fs.name ++ " as type not specified in schema")
            [fs] fs.IsSortable false
        else
          let isText := fs.IsIndexable && ((f1.indexAs &&& INDEXFLD_T_FULLTEXT) != 0)
          let isOther := fs.IsIndexable && (f1.indexAs != INDEXFLD_T_FULLTEXT)
          let isGeo := fs.IsIndexable && f1.CheckIdx INDEXFLD_T_GEO
          (AddDocumentCtx.setDocLoop sp (dedupe ++ [fs.index]) rest).prependResolved
            fs f1 isText isOther fs.IsSortable isGeo
    | _, _ => (AddDocumentCtx.setDocLoop sp dedupe rest).prependSkipped f

/-- `AddDocumentCtx::SetDocument` (document.c lines 23-130).  Clears the three
index-state flags, zeroes the per-field indexer data (the tag slots must be
well-defined for the destructor), runs the per-field loop, then derives the final
flags, allocates the sort vector when a sortable field is present, computes `EMPTY`,
and move-assigns the document.  The byte-offsets allocation (a collaborator of the
tokenizer) is outside the slice.  On failure the context keeps the side effects of the
processed prefix and the document is not moved. -/
def AddDocumentCtx.SetDocument (ctx : AddDocumentCtx) (sp : IndexSpec) (d : Document)
    (_oldFieldCount : Nat) : Bool × AddDocumentCtx :=
  let flags0 := ctx.stateFlags.clearIndexFlags
  let fdatas0 := List.replicate d.fields.length (default : FieldIndexerData)
  match AddDocumentCtx.setDocLoop sp [] d.fields with
  | SetDocLoopRes.err code msg fspecsNew sortAcc geoAcc =>
    (false,
     { ctx with
       stateFlags := { flags0 with sortables := flags0.sortables || sortAcc },
       status := ctx.status.SetErrorFmt code msg,
       fspecs := ctx.fspecs ++ fspecsNew,
       fdatas := fdatas0,
       docFlagsOnDemandDeletable := if geoAcc then true else ctx.docFlagsOnDemandDeletable })
  | SetDocLoopRes.ok fspecsNew outFields _numTextIndexable hasText hasOther sortAcc geoAcc =>
    let flags1 := { flags0 with
      indexables := hasText || hasOther,
      textindexed := !hasText,
      otherindexed := !hasOther,
      sortables := flags0.sortables || sortAcc }
    let sv1 := if flags1.sortables && ctx.sv.isNone
               then some (RSSortingVector.new sp.sortablesLen) else ctx.sv
    let isEmpty := sv1.isNone && !hasText && !hasOther
    let flags2 := if isEmpty then { flags1 with empty := true } else flags1
    (true,
     { ctx with
       stateFlags := flags2,
       sv := sv1,
       fspecs := ctx.fspecs ++ fspecsNew,
       fdatas := fdatas0,
       docFlagsOnDemandDeletable := if geoAcc then true else ctx.docFlagsOnDemandDeletable,
       doc := { d with fields := outFields } })

/-- Modelled from the spec: the host's `RedisModule_StringToDouble` (an external
collaborator) parses the whole text as an `f64`; decimal literals `[+-]?digits[.digits]`
are modelled exactly over `ℚ`, anything else fails. -/
def parseDouble (s : String) : Option ℚ :=
  let cs := s.data
  let signed := match cs with
    | '-' :: r => (true, r)
    | '+' :: r => (false, r)
    | _ => (false, cs)
  let neg := signed.1
  let cs1 := signed.2
  let intPart := cs1.takeWhile Char.isDigit
  let rest := cs1.dropWhile Char.isDigit
  let digitsVal : List Char → ℚ := fun l => (l.foldl (fun a c => a * 10 + (c.toNat - 48)) 0 : Nat)
  let finish : ℚ → Option ℚ := fun v => some (if neg then -v else v)
  match rest with
  | [] => if intPart.isEmpty then none else finish (digitsVal intPart)
  | '.' :: frac =>
    if frac.all Char.isDigit && !(intPart.isEmpty && frac.isEmpty) then
      finish (digitsVal intPart + digitsVal frac / ((10 : ℚ) ^ frac.length))
    else none
  | _ => none

/-- Whether a character is one of the two geo delimiters of `strpbrk(c, " ,")`. -/
def isGeoDelim (c : Char) : Bool := c = ' ' || c = ','

/-- `strpbrk(c, " ,")` followed by the split of `GeoPreprocessor` (document.c lines
416-424): find the first space or comma, replace it by NUL and return the prefix
(longitude) and the suffix after the delimiter (latitude); `none` when the text holds
neither delimiter. -/
def splitAtDelim : List Char → Option (List Char × List Char)
  | [] => none
  | c :: rest =>
    if isGeoDelim c then some ([], rest)
    else match splitAtDelim rest with
      | none => none
      | some (l, r) => some (c :: l, r)

/-- Modelled from the spec: `TagIndex::Tags` (tag_index is outside the slice) parses the
text into a tag collection using the field's separator; a NULL collection (`!fdata->tags`)
is modelled as `none` and arises from empty input. -/
def TagIndex.Tags (sep : Char) (_flags : Nat) (field : DocumentField) : Option (List String) :=
  let text := field.text.getD ""
  if text = "" then none else some (text.split (fun c => c = sep))

/-- `FieldSpec::FulltextPreprocessor` (document.c lines 338-372): if sortable, write the
raw text into the sort vector; the tokenizer drive into the forward index and the
byte-offset bookkeeping are collaborators outside the slice and touch neither the
status nor the sort vector.  The function always returns true. -/
def FieldSpec.FulltextPreprocessor (fs : FieldSpec) (aCtx : AddDocumentCtx)
    (field : DocumentField) (fdata : FieldIndexerData) :
    Bool × AddDocumentCtx × FieldIndexerData :=
  let c := field.text.getD ""
  let aCtx1 := if fs.IsSortable then
      { aCtx with sv := aCtx.sv.map (fun sv => sv.Put fs.sortIdx (RSSortable.str c)) }
    else aCtx
  (true, aCtx1, fdata)

/-- `FieldSpec::NumericPreprocessor` (document.c lines 376-388): parse the text as a
double into `fdata->numeric`; on failure set `NOTNUMERIC` and return false; if sortable,
copy the value into the sort vector as NUM. -/
def FieldSpec.NumericPreprocessor (fs : FieldSpec) (aCtx : AddDocumentCtx)
    (field : DocumentField) (fdata : FieldIndexerData) :
    Bool × AddDocumentCtx × FieldIndexerData :=
  match parseDouble (field.text.getD "") with
  | none =>
      (false, { aCtx with status := aCtx.status.SetCode QueryErrorCode.ENOTNUMERIC }, fdata)
  | some v =>
      let fdata1 := { fdata with numeric := v }
      let aCtx1 := if fs.IsSortable then
          { aCtx with sv := aCtx.sv.map (fun sv => sv.Put fs.sortIdx (RSSortable.num v)) }
        else aCtx
      (true, aCtx1, fdata1)

/-- `FieldSpec::GeoPreprocessor` (document.c lines 413-426): split the text at the first
space or comma into longitude and latitude; with no delimiter set `GEOFORMAT` and return
false. -/
def FieldSpec.GeoPreprocessor (_fs : FieldSpec) (aCtx : AddDocumentCtx)
    (field : DocumentField) (fdata : FieldIndexerData) :
    Bool × AddDocumentCtx × FieldIndexerData :=
  match splitAtDelim (field.text.getD "").data with
  | none =>
      (false, { aCtx with status := aCtx.status.SetCode QueryErrorCode.EGEOFORMAT }, fdata)
  | some (lon, lat) =>
      (true, aCtx, { fdata with geoSlon := String.mk lon, geoSlat := String.mk lat })

/-- `FieldSpec::TagPreprocessor` (document.c lines 445-457): parse the tags; an empty
collection is fine; if sortable, also write the raw text into the sort vector.  The
function always returns true. -/
def FieldSpec.TagPreprocessor (fs : FieldSpec) (aCtx : AddDocumentCtx)
    (field : DocumentField) (fdata : FieldIndexerData) :
    Bool × AddDocumentCtx × FieldIndexerData :=
  match TagIndex.Tags fs.tagSep fs.tagFlags field with
  | none => (true, aCtx, { fdata with tags := none })
  | some ts =>
      let c := field.text.getD ""
      let aCtx1 := if fs.IsSortable then
          { aCtx with sv := aCtx.sv.map (fun sv => sv.Put fs.sortIdx (RSSortable.str c)) }
        else aCtx
      (true, aCtx1, { fdata with tags := some ts })

/-- Outcome of `Document::AddToIndexes`: the final context, the return code
(`true` = `REDISMODULE_OK`), whether `AddDocumentCtx::Finish` ran (the `cleanup` label),
and whether the document reached `indexer->Add`. -/
structure AddToIndexesResult where
  aCtx : AddDocumentCtx
  ok : Bool
  finished : Bool
  indexed : Bool
deriving Repr, DecidableEq

/-- The `cleanup` label of `Document::AddToIndexes` (document.c lines 574-577): overwrite
the code with `GENERIC` only if none is set, invoke `Finish`, return `ERR`.  `i` and `d`
store the failing field's indexer data written through the `fdata` pointer. -/
def addToIndexesCleanup (a : AddDocumentCtx) (i : Nat) (d : FieldIndexerData) :
    AddToIndexesResult :=
  let a1 := { a with fdatas := a.fdatas.set i d }
  { aCtx := { a1 with status := a1.status.SetCode QueryErrorCode.EGENERIC },
    ok := false, finished := true, indexed := false }

/-- The per-field loop of `Document::AddToIndexes` (document.c lines 534-568): skip
fields with an empty spec or a zero `indexAs`, otherwise run the type preprocessors in
the fixed order FULLTEXT → NUMERIC → GEO → TAG, jumping to `cleanup` on the first
failure.  `i` is the loop index into `fdatas`. -/
def Document.addToIndexesLoop (aCtx : AddDocumentCtx) (i : Nat) :
    List (DocumentField × FieldSpec) → AddToIndexesResult
  | [] => { aCtx := aCtx, ok := true, finished := false, indexed := true }
  | (ff, fs) :: rest =>
    if fs.name = "" ∨ ff.indexAs = 0 then Document.addToIndexesLoop aCtx (i + 1) rest
    else
      let fdata0 := aCtx.fdatas.getD i default
      match (if ff.CheckIdx INDEXFLD_T_FULLTEXT
             then fs.FulltextPreprocessor aCtx ff fdata0 else (true, aCtx, fdata0)) with
      | (false, a1, d1) => addToIndexesCleanup a1 i d1
      | (true, a1, d1) =>
        match (if ff.CheckIdx INDEXFLD_T_NUMERIC
               then fs.NumericPreprocessor a1 ff d1 else (true, a1, d1)) with
        | (false, a2, d2) => addToIndexesCleanup a2 i d2
        | (true, a2, d2) =>
          match (if ff.CheckIdx INDEXFLD_T_GEO
                 then fs.GeoPreprocessor a2 ff d2 else (true, a2, d2)) with
          | (false, a3, d3) => addToIndexesCleanup a3 i d3
          | (true, a3, d3) =>
            match (if ff.CheckIdx INDEXFLD_T_TAG
                   then fs.TagPreprocessor a3 ff d3 else (true, a3, d3)) with
            | (false, a4, d4) => addToIndexesCleanup a4 i d4
            | (true, a4, d4) =>
              Document.addToIndexesLoop { a4 with fdatas := a4.fdatas.set i d4 } (i + 1) rest

/-- `Document::AddToIndexes` (document.c lines 531-578): preprocess every field of the
context's document against its resolved spec; on success hand the context to the
indexer, on the first preprocessor failure abort the whole document through `cleanup`. -/
def Document.AddToIndexes (aCtx : AddDocumentCtx) : AddToIndexesResult :=
  Document.addToIndexesLoop aCtx 0 (aCtx.doc.fields.zip aCtx.fspecs)

/-- A node of the numeric range tree as the GC sees it: `range` is the (possibly NULL)
`NumericRange` payload carried by leaves (legacy_gc.c `node->range`); the range itself is
opaque to the claims and modelled by its entry count. -/
structure NumericRangeNode where
  range : Option Nat
deriving Repr, DecidableEq

/-- The numeric range tree as the GC sees it: the node sequence a fresh
`NumericRangeTreeIterator` yields, plus the structural `revisionId`. -/
structure NumericRangeTree where
  nodes : List NumericRangeNode
  revisionId : Nat
deriving Repr, DecidableEq

/-- Per-field numeric GC state `NumericFieldGC { rt, revisionId, gcIterator }`
(legacy_gc.c lines 154-156); the iterator is modelled by the list of nodes it has not
yet returned. -/
structure NumericFieldGC where
  rt : NumericRangeTree
  revisionId : Nat
  gcIterator : List NumericRangeNode
deriving Repr, DecidableEq

/-- Constructor `NumericFieldGC(rt)`: capture the tree, its revision id, and a fresh
iterator. -/
def NumericFieldGC.new (rt : NumericRangeTree) : NumericFieldGC :=
  { rt := rt, revisionId := rt.revisionId, gcIterator := rt.nodes }

/-- Drain an iterator until a node carrying a range appears (the inner `while` of
`NextGcNode`), returning that node and the rest of the iterator. -/
def firstRangeNode : List NumericRangeNode → Option (NumericRangeNode × List NumericRangeNode)
  | [] => none
  | n :: rest => if n.range.isSome then some (n, rest) else firstRangeNode rest

/-- `NextGcNode` (legacy_gc.c lines 133-150): skip nodes without a range; on exhaustion
delete the iterator and restart from the root exactly once (`runFromStart`); if the
second iteration is also exhausted, throw "Second iterator should return result". -/
def NextGcNode (numericGc : NumericFieldGC) :
    Except String (NumericRangeNode × NumericFieldGC) :=
  match firstRangeNode numericGc.gcIterator with
  | some (n, rest) => Except.ok (n, { numericGc with gcIterator := rest })
  | none =>
    match firstRangeNode numericGc.rt.nodes with
    | some (n, rest) => Except.ok (n, { numericGc with gcIterator := rest })
    | none => Except.error "Second iterator should return result"

/-- The numeric-field count sanity check of `GarbageCollector::CollectNumericIndex`
(legacy_gc.c lines 292-305): `ok true` means the cached per-field array is rebuilt,
`ok false` means the counts match and the cache is kept; a spec whose numeric-field
count shrank (or merely changed while not growing) throws
"it is not possible to remove fields". -/
def CollectNumericIndexFieldCheck (numericFieldsSize cachedLen : Nat) :
    Except String Bool :=
  if numericFieldsSize ≠ cachedLen then
    if numericFieldsSize ≤ cachedLen then
      Except.error "it is not possible to remove fields"
    else Except.ok true
  else Except.ok false

/-- GC statistics (`GCStats`). -/
structure GCStats where
  totalCollected : Nat
  numCycles : Nat
  effectiveCycles : Nat
deriving Repr, DecidableEq

/-- State of a `GarbageCollector` (legacy_gc.c): frequency, key name, stats, the
RDB-loading latch, and the captured spec unique id the yield checks compare against. -/
structure GarbageCollectorState where
  hz : ℚ
  keyName : String
  stats : GCStats
  rdbPossiblyLoading : Bool
  noLockMode : Bool
  specUniqueId : Nat
  numericGC : List NumericFieldGC
deriving Repr, DecidableEq

/-- Constructor `GarbageCollector::GarbageCollector(k, initialHZ, specUniqueId)`
(legacy_gc.c lines 41-49), applied to the pre-construction state `prev` of the object's
fields.  The source line `specUniqueId = specUniqueId;` assigns the constructor
parameter to itself — the parameter shadows the member — so the member keeps the value
the allocation carried and the `specUniqueId` argument is dropped. -/
def GarbageCollector.construct (prev : GarbageCollectorState) (k : String) (initialHZ : ℚ)
    (_specUniqueId : Nat) : GarbageCollectorState :=
  { prev with
    hz := initialHZ,
    keyName := k,
    stats := { totalCollected := 0, numCycles := 0, effectiveCycles := 0 },
    rdbPossiblyLoading := true,
    noLockMode := false,
    numericGC := [] }

/-- GC frequency bounds `GC_MIN_HZ` / `GC_MAX_HZ` (config.h, outside the slice; the spec
gives no values, so they stay parameters). -/
structure GCConfig where
  GC_MIN_HZ : ℚ
  GC_MAX_HZ : ℚ
deriving Repr, DecidableEq

/-- Abstraction of one periodic pass body: whether the host reports an RDB load in
progress, the record counts the three collect calls removed, and whether any of them set
`SPEC_STATUS_INVALID`.  The collect calls themselves walk host-side indexes outside the
shallow embedding. -/
structure GCPassEnv where
  isRdbLoading : Bool
  removedTerm : Nat
  removedNumeric : Nat
  removedTag : Nat
  statusInvalid : Bool
deriving Repr, DecidableEq

/-- `GarbageCollector::PeriodicCallback` (legacy_gc.c lines 363-400): skip while the RDB
may still be loading, clear the latch on the first negative check, run the three
collects, bump the cycle stats, and adapt `hz`: removals scale it by 1.2 capped at
`GC_MAX_HZ`, an idle pass decays it by 0.99 floored at `GC_MIN_HZ`.  Returns the new
state and `status == SPEC_STATUS_OK`. -/
def GarbageCollector.PeriodicCallback (cfg : GCConfig) (gc : GarbageCollectorState)
    (env : GCPassEnv) : GarbageCollectorState × Bool :=
  if gc.rdbPossiblyLoading && env.isRdbLoading then (gc, true)
  else
    let gc1 := if gc.rdbPossiblyLoading then { gc with rdbPossiblyLoading := false } else gc
    let totalRemoved := env.removedTerm + env.removedNumeric + env.removedTag
    let gc2 := { gc1 with stats := { gc1.stats with
      numCycles := gc1.stats.numCycles + 1,
      effectiveCycles := gc1.stats.effectiveCycles + (if totalRemoved > 0 then 1 else 0) } }
    let hz1 := if totalRemoved > 0 then min (gc2.hz * (6 / 5)) cfg.GC_MAX_HZ
               else max (gc2.hz * (99 / 100)) cfg.GC_MIN_HZ
    ({ gc2 with hz := hz1 }, !env.statusInvalid)

/-- `GarbageCollector::OnDelete` (legacy_gc.c lines 423-425): an external delete hint
bumps the frequency by 1.5 capped at `GC_MAX_HZ`. -/
def GarbageCollector.OnDelete (cfg : GCConfig) (gc : GarbageCollectorState) :
    GarbageCollectorState :=
  { gc with hz := min (gc.hz * (3 / 2)) cfg.GC_MAX_HZ }

/-- Derived characterization: the `indexAs` resolution of document.c lines 66-76 as a
per-field function — an unspecified mask defaults to `fs.types`, a caller-specified one
is kept. -/
def resolveField (sp : IndexSpec) (f : DocumentField) : DocumentField :=
  match sp.GetField f.name, f.text with
  | some fs, some _ => if f.indexAs = 0 then { f with indexAs := fs.types } else f
  | _, _ => f

/-- Derived characterization: the specs of the fields that resolve (known name and
non-NULL text) — exactly the fields subject to dedupe and the `indexAs` check. -/
def resolvedSpecs (sp : IndexSpec) (fl : List DocumentField) : List FieldSpec :=
  fl.filterMap (fun f =>
    match sp.GetField f.name, f.text with
    | some fs, some _ => some fs
    | _, _ => none)

/-- Derived characterization: a field passes the `indexAs ⊆ fs.types` verification of
document.c lines 67-76 (vacuously true for skipped fields). -/
def fieldTypeOK (sp : IndexSpec) (f : DocumentField) : Bool :=
  match sp.GetField f.name, f.text with
  | some fs, some _ => (f.indexAs == 0) || ((f.indexAs &&& fs.types) == f.indexAs)
  | _, _ => true

/-- Derived characterization: the field counts as text-indexable (`hasTextFields`
contribution, document.c lines 78-82). -/
def fieldIsText (sp : IndexSpec) (f : DocumentField) : Bool :=
  match sp.GetField f.name, f.text with
  | some fs, some _ =>
      let ia := if f.indexAs = 0 then fs.types else f.indexAs
      fs.IsIndexable && ((ia &&& INDEXFLD_T_FULLTEXT) != 0)
  | _, _ => false

/-- Derived characterization: the field counts as non-text indexable (`hasOtherFields`
contribution, document.c lines 84-87). -/
def fieldIsOther (sp : IndexSpec) (f : DocumentField) : Bool :=
  match sp.GetField f.name, f.text with
  | some fs, some _ =>
      let ia := if f.indexAs = 0 then fs.types else f.indexAs
      fs.IsIndexable && (ia != INDEXFLD_T_FULLTEXT)
  | _, _ => false

/-- Derived characterization: the field is resolved and sortable (`ACTX_F_SORTABLES`
contribution, document.c lines 61-64). -/
def fieldIsSortable (sp : IndexSpec) (f : DocumentField) : Bool :=
  match sp.GetField f.name, f.text with
  | some fs, some _ => fs.IsSortable
  | _, _ => false

/-- Derived characterization: some field of the document is text-indexable. -/
def docHasTextField (sp : IndexSpec) (d : Document) : Bool :=
  d.fields.any (fieldIsText sp)

/-- Derived characterization: some field of the document is non-text indexable. -/
def docHasOtherField (sp : IndexSpec) (d : Document) : Bool :=
  d.fields.any (fieldIsOther sp)

/-- A state-flag word with every flag clear, as on a freshly constructed ingest
context (`stateFlags = 0` in `AddDocumentCtx::AddDocumentCtx`). -/
def freshStateFlags : StateFlags :=
  { indexables := false, textindexed := false, otherindexed := false,
    sortables := false, empty := false }

/-- An ingest context in the state `AddDocumentCtx::AddDocumentCtx` establishes before
calling `SetDocument`: zero flags, cleared status, no sort vector, no accumulated field
specs. -/
def freshAddDocumentCtx : AddDocumentCtx :=
  { stateFlags := freshStateFlags,
    status := { code := QueryErrorCode.OK, detail := none },
    sv := none,
    docFlagsOnDemandDeletable := false,
    fspecs := [],
    fdatas := [],
    doc := { fields := [] } }

/-- Example schema used by the concrete ingest scenarios: one indexable FULLTEXT field
`title`. -/
def spTitleOnly : IndexSpec :=
  { fields := [{ name := "title", index := 0, types := INDEXFLD_T_FULLTEXT,
                 sortable := false, noIndex := false, sortIdx := 0,
                 tagSep := ',', tagFlags := 0 }],
    sortablesLen := 0 }

/-- A one-field document matching `spTitleOnly`. -/
def dTitleDoc : Document :=
  { fields := [{ name := "title", text := some "hello", indexAs := 0 }] }

/-- A context that already carries stale `SORTABLES` and `EMPTY` flags from an earlier
ingest (a recycled context, or the second `SetDocument` call of `ReplaceMerge`). -/
def staleFlagsCtx : AddDocumentCtx :=
  { freshAddDocumentCtx with
    stateFlags := { freshStateFlags with sortables := true, empty := true } }

/-- A document delivering the same `title` field twice. -/
def dDupTitleDoc : Document :=
  { fields := [{ name := "title", text := some "a", indexAs := 0 },
               { name := "title", text := some "b", indexAs := 0 }] }

/-- A document requesting `title` be indexed NUMERIC, which `spTitleOnly` does not
declare. -/
def dBadTypeDoc : Document :=
  { fields := [{ name := "title", text := some "a", indexAs := INDEXFLD_T_NUMERIC }] }

/-- Schema with a single sortable NUMERIC field `price` for the preprocessor
round-trip scenario. -/
def spPriceSortable : IndexSpec :=
  { fields := [{ name := "price", index := 0, types := INDEXFLD_T_NUMERIC,
                 sortable := true, noIndex := false, sortIdx := 0,
                 tagSep := ',', tagFlags := 0 }],
    sortablesLen := 1 }

/-- The sortable-numeric field spec of `spPriceSortable`. -/
def fsPrice : FieldSpec :=
  { name := "price", index := 0, types := INDEXFLD_T_NUMERIC,
    sortable := true, noIndex := false, sortIdx := 0, tagSep := ',', tagFlags := 0 }

/-- A context prepared for `AddToIndexes` with one numeric field whose text does not
parse as a number. -/
def badNumericCtx : AddDocumentCtx :=
  { stateFlags :=
      { indexables := true, textindexed := true, otherindexed := false,
        sortables := true, empty := false },
    status := { code := QueryErrorCode.OK, detail := none },
    sv := some (RSSortingVector.new 1),
    docFlagsOnDemandDeletable := false,
    fspecs := [fsPrice],
    fdatas := [default],
    doc := { fields := [{ name := "price", text := some "not-a-number",
                          indexAs := INDEXFLD_T_NUMERIC }] } }

/-- A pre-construction garbage-collector state whose `specUniqueId` memory happens to
hold `0`; the constructor is expected (by the spec) to overwrite it. -/
def gcUninitState : GarbageCollectorState :=
  { hz := 0, keyName := "",
    stats := { totalCollected := 0, numCycles := 0, effectiveCycles := 0 },
    rdbPossiblyLoading := false, noLockMode := false,
    specUniqueId := 0, numericGC := [] }

/-- A numeric-GC state whose iterator and tree hold only nodes without a range. -/
def emptyRangesGc : NumericFieldGC :=
  { rt := { nodes := [{ range := none }, { range := none }], revisionId := 3 },
    revisionId := 3,
    gcIterator := [{ range := none }] }

/-- A concrete GC configuration for the witness scenarios. -/
def gcCfgExample : GCConfig := { GC_MIN_HZ := 1, GC_MAX_HZ := 100 }

/-- A running collector (RDB latch already cleared) at 10 Hz. -/
def gcRunningState : GarbageCollectorState :=
  { gcUninitState with hz := 10, specUniqueId := 7 }

/-- A pass environment that removed three records in the term scan. -/
def gcPassRemoved : GCPassEnv :=
  { isRdbLoading := false, removedTerm := 3, removedNumeric := 0, removedTag := 0,
    statusInvalid := false }

/-- Derived accessor: the error code and message of a failed `SetDocument` loop, if
any. -/
def SetDocLoopRes.errInfo : SetDocLoopRes → Option (QueryErrorCode × String)
  | SetDocLoopRes.err c m _ _ _ => some (c, m)
  | SetDocLoopRes.ok _ _ _ _ _ _ _ => none

/-! Theorems.  Helper lemmas come first, then one theorem (plus witness or
counterexample) per claim. -/

theorem prependSkipped_errInfo (f : DocumentField) (r : SetDocLoopRes) :
    (r.prependSkipped f).errInfo = r.errInfo := by
  cases r <;> rfl

theorem prependResolved_errInfo (fs : FieldSpec) (f1 : DocumentField)
    (isText isOther isSort isGeo : Bool) (r : SetDocLoopRes) :
    (r.prependResolved fs f1 isText isOther isSort isGeo).errInfo = r.errInfo := by
  cases r <;> rfl

theorem QueryError.SetCode_of_set {st : QueryError} {c : QueryErrorCode}
    (h : st.code ≠ QueryErrorCode.OK) : st.SetCode c = st := by
  unfold QueryError.SetCode
  simp [h]

theorem QueryError.SetCode_of_ok {st : QueryError} {c : QueryErrorCode}
    (h : st.code = QueryErrorCode.OK) : (st.SetCode c).code = c := by
  unfold QueryError.SetCode
  simp [h]

theorem firstRangeNode_none_iff (l : List NumericRangeNode) :
    firstRangeNode l = none ↔ ∀ n ∈ l, n.range = none := by
  induction l with
  | nil => simp [firstRangeNode]
  | cons n rest ih =>
    cases hr : n.range with
    | none => simp [firstRangeNode, hr, ih]
    | some v => simp [firstRangeNode, hr]

theorem firstRangeNode_some_range {l rest : List NumericRangeNode} {n : NumericRangeNode}
    (h : firstRangeNode l = some (n, rest)) : n.range.isSome = true := by
  induction l generalizing rest with
  | nil => simp [firstRangeNode] at h
  | cons m tail ih =>
    by_cases hm : m.range.isSome = true
    · simp [firstRangeNode, hm] at h
      obtain ⟨rfl, rfl⟩ := h
      exact hm
    · simp [firstRangeNode, hm] at h
      exact ih h

theorem getD_set_self {α : Type} (l : List α) (i : Nat) (a b : α) (h : i < l.length) :
    (l.set i a).getD i b = a := by
  simp [List.getD_eq_getElem?_getD, List.getElem?_set_self h]

theorem splitAtDelim_of_no_delim (cs : List Char) :
    (∀ c ∈ cs, isGeoDelim c = false) → splitAtDelim cs = none := by
  induction cs with
  | nil => intro h; rfl
  | cons c rest ih =>
    intro h
    have hc := h c (by simp)
    simp [splitAtDelim, hc, ih (fun x hx => h x (by simp [hx]))]

theorem splitAtDelim_sound (cs : List Char) : ∀ (l r : List Char),
    splitAtDelim cs = some (l, r) →
    (∀ c ∈ l, isGeoDelim c = false) ∧ ∃ c, isGeoDelim c = true ∧ cs = l ++ c :: r := by
  induction cs with
  | nil => intro l r h; simp [splitAtDelim] at h
  | cons c rest ih =>
    intro l r h
    by_cases hd : isGeoDelim c = true
    · simp [splitAtDelim, hd] at h
      obtain ⟨rfl, rfl⟩ := h
      exact ⟨by simp, c, hd, by simp⟩
    · have hd' : isGeoDelim c = false := by simpa using hd
      cases hs : splitAtDelim rest with
      | none => simp [splitAtDelim, hd', hs] at h
      | some p =>
        obtain ⟨l', r'⟩ := p
        simp [splitAtDelim, hd', hs] at h
        obtain ⟨hleq, hreq⟩ := h
        subst hleq
        subst hreq
        obtain ⟨hl, c', hc', hcs⟩ := ih l' r' hs
        refine ⟨?_, c', hc', by simp [hcs]⟩
        intro x hx
        rcases List.mem_cons.mp hx with rfl | hx'
        · exact hd'
        · exact hl x hx'

/-- C2: the source intends the constructor to capture the spec unique id for the yield
checks of every collect pass, but `specUniqueId = specUniqueId;` (legacy_gc.c line 47)
self-assigns the shadowing parameter, so constructing a collector with unique id 7 over
memory holding 0 leaves the member at 0 — the id passed at construction is dropped. -/
theorem gc_construct_drops_specUniqueId :
    (GarbageCollector.construct gcUninitState "idx" 1 7).specUniqueId = 0 ∧
    ¬ (GarbageCollector.construct gcUninitState "idx" 1 7).specUniqueId = 7 := by
  exact ⟨rfl, by decide⟩

/-- C3: a periodic pass that actually runs adapts the frequency exactly as claimed —
at least one removed record scales `hz` by 1.2 capped at `GC_MAX_HZ`, an idle pass
decays it by 0.99 floored at `GC_MIN_HZ`, and `OnDelete` bumps `hz` by 1.5 capped at
`GC_MAX_HZ`. -/
theorem gc_periodic_hz_adaptive (cfg : GCConfig) (gc : GarbageCollectorState)
    (env : GCPassEnv)
    (hrun : ¬(gc.rdbPossiblyLoading = true ∧ env.isRdbLoading = true)) :
    (1 ≤ env.removedTerm + env.removedNumeric + env.removedTag →
       (GarbageCollector.PeriodicCallback cfg gc env).1.hz =
         min (gc.hz * (6 / 5)) cfg.GC_MAX_HZ) ∧
    (env.removedTerm + env.removedNumeric + env.removedTag = 0 →
       (GarbageCollector.PeriodicCallback cfg gc env).1.hz =
         max (gc.hz * (99 / 100)) cfg.GC_MIN_HZ) ∧
    (∀ g : GarbageCollectorState,
       (GarbageCollector.OnDelete cfg g).hz = min (g.hz * (3 / 2)) cfg.GC_MAX_HZ) := by
  have hcond : (gc.rdbPossiblyLoading && env.isRdbLoading) = false := by
    cases h1 : gc.rdbPossiblyLoading <;> cases h2 : env.isRdbLoading <;> simp_all
  refine ⟨?_, ?_, fun g => rfl⟩
  · intro hrem
    have hpos : 0 < env.removedTerm + env.removedNumeric + env.removedTag := hrem
    simp only [GarbageCollector.PeriodicCallback, hcond, Bool.false_eq_true, if_false,
      hpos, if_pos]
    cases hl : gc.rdbPossiblyLoading <;> simp
  · intro hzero
    have hneg : ¬ 0 < env.removedTerm + env.removedNumeric + env.removedTag := by omega
    simp only [GarbageCollector.PeriodicCallback, hcond, Bool.false_eq_true, if_false,
      hneg, if_neg]
    cases hl : gc.rdbPossiblyLoading <;> simp

/-- Witness for C3: at 10 Hz with bounds [1, 100], a pass that removed three records
moves to 12 Hz and a delete hint moves to 15 Hz. -/
theorem gc_periodic_hz_adaptive_witness :
    (GarbageCollector.PeriodicCallback gcCfgExample gcRunningState gcPassRemoved).1.hz = 12 ∧
    (GarbageCollector.OnDelete gcCfgExample gcRunningState).hz = 15 := by
  have h := gc_periodic_hz_adaptive gcCfgExample gcRunningState gcPassRemoved (by decide)
  constructor
  · rw [h.1 (by decide)]
    show min ((10 : ℚ) * (6 / 5)) 100 = 12
    rw [show (10 : ℚ) * (6 / 5) = 12 by norm_num]
    exact min_eq_left (by norm_num)
  · rw [h.2.2 gcRunningState]
    show min ((10 : ℚ) * (3 / 2)) 100 = 15
    rw [show (10 : ℚ) * (3 / 2) = 15 by norm_num]
    exact min_eq_left (by norm_num)

/-- C9: `NextGcNode` fails with the defensive error exactly when both the current
iterator remainder and a fresh root iteration carry no range (so the restart happens at
most once and never loops), any returned node carries a range, and the field-count
sanity check rejects a non-growing mismatch while only growth rebuilds. -/
theorem numericGC_defensive_checks (g : NumericFieldGC) (nfs cached : Nat) :
    (NextGcNode g = Except.error "Second iterator should return result" ↔
       (∀ n ∈ g.gcIterator, n.range = none) ∧ ∀ n ∈ g.rt.nodes, n.range = none) ∧
    (∀ n g', NextGcNode g = Except.ok (n, g') → n.range.isSome = true) ∧
    (nfs ≠ cached → nfs ≤ cached →
       CollectNumericIndexFieldCheck nfs cached =
         Except.error "it is not possible to remove fields") ∧
    (cached < nfs → CollectNumericIndexFieldCheck nfs cached = Except.ok true) ∧
    (nfs = cached → CollectNumericIndexFieldCheck nfs cached = Except.ok false) := by
  refine ⟨?_, ?_, ?_, ?_, ?_⟩
  · constructor
    · intro h
      unfold NextGcNode at h
      cases h1 : firstRangeNode g.gcIterator with
      | some p => rw [h1] at h; simp at h
      | none =>
        cases h2 : firstRangeNode g.rt.nodes with
        | some p => rw [h1, h2] at h; simp at h
        | none =>
          exact ⟨(firstRangeNode_none_iff _).mp h1, (firstRangeNode_none_iff _).mp h2⟩
    · intro ⟨h1, h2⟩
      unfold NextGcNode
      rw [(firstRangeNode_none_iff _).mpr h1, (firstRangeNode_none_iff _).mpr h2]
  · intro n g' h
    unfold NextGcNode at h
    cases h1 : firstRangeNode g.gcIterator with
    | some p =>
      rw [h1] at h
      obtain ⟨m, rest⟩ := p
      simp at h
      obtain ⟨rfl, -⟩ := h
      exact firstRangeNode_some_range h1
    | none =>
      rw [h1] at h
      cases h2 : firstRangeNode g.rt.nodes with
      | some p =>
        rw [h2] at h
        obtain ⟨m, rest⟩ := p
        simp at h
        obtain ⟨rfl, -⟩ := h
        exact firstRangeNode_some_range h2
      | none => rw [h2] at h; simp at h
  · intro hne hle
    unfold CollectNumericIndexFieldCheck
    simp [hne, hle]
  · intro hlt
    unfold CollectNumericIndexFieldCheck
    have hne : nfs ≠ cached := by omega
    have hnle : ¬ nfs ≤ cached := by omega
    simp [hne, hnle]
  · intro heq
    unfold CollectNumericIndexFieldCheck
    simp [heq]

/-- Witness for C9: a numeric GC whose iterator and tree hold no range throws the
defensive error, a cached array of 2 with a spec of 1 numeric field is rejected, and a
spec grown to 3 fields triggers a rebuild. -/
theorem numericGC_defensive_checks_witness :
    NextGcNode emptyRangesGc = Except.error "Second iterator should return result" ∧
    CollectNumericIndexFieldCheck 1 2 =
      Except.error "it is not possible to remove fields" ∧
    CollectNumericIndexFieldCheck 3 2 = Except.ok true :=
  ⟨(numericGC_defensive_checks emptyRangesGc 1 2).1.mpr (by decide),
   (numericGC_defensive_checks emptyRangesGc 1 2).2.2.1 (by decide) (by decide),
   (numericGC_defensive_checks emptyRangesGc 3 2).2.2.2.1 (by decide)⟩

/-- C10: `SetDocument` clears only the three index-state flags on entry; `SORTABLES`
and `EMPTY` are only ever set, never cleared, so a stale value of either survives any
later call on the same context — including the second `SetDocument` issued by
`ReplaceMerge` during a PARTIAL update. -/
theorem setDocument_flag_persistence (ctx : AddDocumentCtx) (sp : IndexSpec)
    (d : Document) (n : Nat) :
    ((ctx.SetDocument sp d n).2.stateFlags.sortables = ctx.stateFlags.sortables ∨
     (ctx.SetDocument sp d n).2.stateFlags.sortables = true) ∧
    ((ctx.SetDocument sp d n).2.stateFlags.empty = ctx.stateFlags.empty ∨
     (ctx.SetDocument sp d n).2.stateFlags.empty = true) ∧
    (ctx.stateFlags.sortables = true →
       (ctx.SetDocument sp d n).2.stateFlags.sortables = true) ∧
    (ctx.stateFlags.empty = true → (ctx.SetDocument sp d n).2.stateFlags.empty = true) := by
  cases hloop : AddDocumentCtx.setDocLoop sp [] d.fields with
  | err code msg fsp so geo =>
    simp only [AddDocumentCtx.SetDocument, hloop, StateFlags.clearIndexFlags]
    refine ⟨?_, ?_, fun h => ?_, fun h => ?_⟩
    · cases hs : ctx.stateFlags.sortables <;> cases so <;> simp
    · simp
    · simp [h]
    · simp [h]
  | ok fsp out nt ht ho so geo =>
    simp only [AddDocumentCtx.SetDocument, hloop, StateFlags.clearIndexFlags]
    refine ⟨?_, ?_, ?_, ?_⟩
    · split_ifs <;>
        (cases hs : ctx.stateFlags.sortables <;> cases so <;> simp_all)
    · split_ifs <;> simp
    · intro h
      split_ifs <;> simp_all
    · intro h
      split_ifs <;> simp_all

/-- Witness for C10: a context carrying stale `SORTABLES` and `EMPTY` flags keeps both
set after ingesting a non-empty document with no sortable field. -/
theorem setDocument_flag_persistence_witness :
    staleFlagsCtx.stateFlags.sortables = true ∧
    staleFlagsCtx.stateFlags.empty = true ∧
    (staleFlagsCtx.SetDocument spTitleOnly dTitleDoc 0).2.stateFlags.sortables = true ∧
    (staleFlagsCtx.SetDocument spTitleOnly dTitleDoc 0).2.stateFlags.empty = true :=
  ⟨rfl, rfl,
   (setDocument_flag_persistence staleFlagsCtx spTitleOnly dTitleDoc 0).2.2.1 rfl,
   (setDocument_flag_persistence staleFlagsCtx spTitleOnly dTitleDoc 0).2.2.2 rfl⟩

/-- C6: on a numeric-sortable field the preprocessor parses "42.5", stores it in the
field data, writes `NUM(42.5)` into the sort vector at `sortIdx` — reading the slot
back yields `NUM(42.5)` — and leaves the status untouched; a non-numeric text fails,
setting code `NOTNUMERIC` on a clean status and leaving the sort vector unchanged. -/
theorem numericPreprocessor_roundtrip (fs : FieldSpec) (aCtx : AddDocumentCtx)
    (fdata : FieldIndexerData) (sv : RSSortingVector)
    (hsort : fs.IsSortable = true) (hsv : aCtx.sv = some sv)
    (hlen : fs.sortIdx < sv.values.length) :
    (∀ ff : DocumentField, ff.text = some "42.5" →
       (fs.NumericPreprocessor aCtx ff fdata).1 = true ∧
       (fs.NumericPreprocessor aCtx ff fdata).2.2.numeric = (42.5 : ℚ) ∧
       (fs.NumericPreprocessor aCtx ff fdata).2.1.sv =
         some (sv.Put fs.sortIdx (RSSortable.num (42.5 : ℚ))) ∧
       (sv.Put fs.sortIdx (RSSortable.num (42.5 : ℚ))).Get fs.sortIdx =
         some (RSSortable.num (42.5 : ℚ)) ∧
       (fs.NumericPreprocessor aCtx ff fdata).2.1.status = aCtx.status) ∧
    (∀ ff : DocumentField, ff.text = some "not-a-number" →
       (fs.NumericPreprocessor aCtx ff fdata).1 = false ∧
       (fs.NumericPreprocessor aCtx ff fdata).2.1.status =
         aCtx.status.SetCode QueryErrorCode.ENOTNUMERIC ∧
       (aCtx.status.code = QueryErrorCode.OK →
          (fs.NumericPreprocessor aCtx ff fdata).2.1.status.code =
            QueryErrorCode.ENOTNUMERIC) ∧
       (fs.NumericPreprocessor aCtx ff fdata).2.1.sv = aCtx.sv) := by
  have hp : parseDouble "42.5" = some (42.5 : ℚ) := by
    simp [parseDouble]
    norm_num
  have hn : parseDouble "not-a-number" = none := by decide
  constructor
  · intro ff htext
    simp only [FieldSpec.NumericPreprocessor, htext, Option.getD_some, hp, hsort, hsv,
      if_true, Option.map_some]
    refine ⟨by trivial, by trivial, by trivial, ?_, by trivial⟩
    exact getD_set_self _ _ _ _ hlen
  · intro ff htext
    simp only [FieldSpec.NumericPreprocessor, htext, Option.getD_some, hn]
    exact ⟨by trivial, by trivial, fun hok => QueryError.SetCode_of_ok hok, by trivial⟩

/-- Witness for C6: the sortable numeric field `price` over a fresh one-slot sort
vector accepts "42.5" and stores 42.5, and rejects "not-a-number". -/
theorem numericPreprocessor_roundtrip_witness :
    (fsPrice.NumericPreprocessor badNumericCtx
       ⟨"price", some "42.5", INDEXFLD_T_NUMERIC⟩ default).1 = true ∧
    (fsPrice.NumericPreprocessor badNumericCtx
       ⟨"price", some "42.5", INDEXFLD_T_NUMERIC⟩ default).2.2.numeric = (42.5 : ℚ) ∧
    ((RSSortingVector.new 1).Put 0 (RSSortable.num (42.5 : ℚ))).Get 0 =
      some (RSSortable.num (42.5 : ℚ)) ∧
    (fsPrice.NumericPreprocessor badNumericCtx
       ⟨"price", some "not-a-number", INDEXFLD_T_NUMERIC⟩ default).1 = false := by
  have h := numericPreprocessor_roundtrip fsPrice badNumericCtx default
    (RSSortingVector.new 1) rfl rfl (by decide)
  exact ⟨(h.1 ⟨"price", some "42.5", INDEXFLD_T_NUMERIC⟩ rfl).1,
    (h.1 ⟨"price", some "42.5", INDEXFLD_T_NUMERIC⟩ rfl).2.1,
    (h.1 ⟨"price", some "42.5", INDEXFLD_T_NUMERIC⟩ rfl).2.2.2.1,
    (h.2 ⟨"price", some "not-a-number", INDEXFLD_T_NUMERIC⟩ rfl).1⟩

/-- C7: the geo preprocessor splits the text at the first space or comma — the prefix
becomes the longitude view, the suffix after the delimiter the latitude, so
"40.7,-74.0" and "40.7 -74.0" both give lon "40.7" and lat "-74.0"; a text containing
neither delimiter fails with code `GEOFORMAT`; and in general a successful split
returns a delimiter-free prefix and the remainder after the first delimiter. -/
theorem geoPreprocessor_split (fs : FieldSpec) (aCtx : AddDocumentCtx)
    (fdata : FieldIndexerData) :
    (∀ ff : DocumentField, ff.text = some "40.7,-74.0" →
       fs.GeoPreprocessor aCtx ff fdata =
         (true, aCtx, { fdata with geoSlon := "40.7", geoSlat := "-74.0" })) ∧
    (∀ ff : DocumentField, ff.text = some "40.7 -74.0" →
       fs.GeoPreprocessor aCtx ff fdata =
         (true, aCtx, { fdata with geoSlon := "40.7", geoSlat := "-74.0" })) ∧
    (∀ (ff : DocumentField) (s : String), ff.text = some s →
       (∀ c ∈ s.data, isGeoDelim c = false) →
       (fs.GeoPreprocessor aCtx ff fdata).1 = false ∧
       (fs.GeoPreprocessor aCtx ff fdata).2.1.status =
         aCtx.status.SetCode QueryErrorCode.EGEOFORMAT ∧
       (aCtx.status.code = QueryErrorCode.OK →
          (fs.GeoPreprocessor aCtx ff fdata).2.1.status.code =
            QueryErrorCode.EGEOFORMAT)) ∧
    (∀ cs l r : List Char, splitAtDelim cs = some (l, r) →
       (∀ c ∈ l, isGeoDelim c = false) ∧ ∃ c, isGeoDelim c = true ∧ cs = l ++ c :: r) := by
  refine ⟨?_, ?_, ?_, fun cs l r h => splitAtDelim_sound cs l r h⟩
  · intro ff htext
    have hc : splitAtDelim "40.7,-74.0".data = some ("40.7".data, "-74.0".data) := by decide
    simp only [FieldSpec.GeoPreprocessor, htext, Option.getD_some, hc]
  · intro ff htext
    have hc : splitAtDelim "40.7 -74.0".data = some ("40.7".data, "-74.0".data) := by decide
    simp only [FieldSpec.GeoPreprocessor, htext, Option.getD_some, hc]
  · intro ff s htext hnod
    have hc : splitAtDelim s.data = none := splitAtDelim_of_no_delim s.data hnod
    simp only [FieldSpec.GeoPreprocessor, htext, Option.getD_some, hc]
    exact ⟨by trivial, by trivial, fun hok => QueryError.SetCode_of_ok hok⟩

/-- Witness for C7: both delimiter forms of the example coordinate split into
lon "40.7" / lat "-74.0", and the delimiter-free "40.7" fails with `GEOFORMAT`. -/
theorem geoPreprocessor_split_witness :
    fsPrice.GeoPreprocessor freshAddDocumentCtx
      ⟨"loc", some "40.7,-74.0", INDEXFLD_T_GEO⟩ default =
      (true, freshAddDocumentCtx,
       { (default : FieldIndexerData) with geoSlon := "40.7", geoSlat := "-74.0" }) ∧
    fsPrice.GeoPreprocessor freshAddDocumentCtx
      ⟨"loc", some "40.7 -74.0", INDEXFLD_T_GEO⟩ default =
      (true, freshAddDocumentCtx,
       { (default : FieldIndexerData) with geoSlon := "40.7", geoSlat := "-74.0" }) ∧
    (fsPrice.GeoPreprocessor freshAddDocumentCtx
      ⟨"loc", some "40.7", INDEXFLD_T_GEO⟩ default).1 = false ∧
    (fsPrice.GeoPreprocessor freshAddDocumentCtx
      ⟨"loc", some "40.7", INDEXFLD_T_GEO⟩ default).2.1.status.code =
      QueryErrorCode.EGEOFORMAT := by
  have h := geoPreprocessor_split fsPrice freshAddDocumentCtx default
  refine ⟨h.1 _ rfl, h.2.1 _ rfl, ?_, ?_⟩
  · exact (h.2.2.1 _ "40.7" rfl (by decide)).1
  · exact (h.2.2.1 _ "40.7" rfl (by decide)).2.2 rfl

theorem fulltextPre_shape (fs : FieldSpec) (a : AddDocumentCtx) (f : DocumentField)
    (d : FieldIndexerData) :
    ∃ a', fs.FulltextPreprocessor a f d = (true, a', d) ∧ a'.status = a.status := by
  cases hs : fs.IsSortable with
  | false => exact ⟨a, by simp [FieldSpec.FulltextPreprocessor, hs], rfl⟩
  | true =>
    exact ⟨{ a with sv := a.sv.map (fun sv => sv.Put fs.sortIdx (RSSortable.str (f.text.getD ""))) },
      by simp [FieldSpec.FulltextPreprocessor, hs], rfl⟩

theorem tagPre_shape (fs : FieldSpec) (a : AddDocumentCtx) (f : DocumentField)
    (d : FieldIndexerData) :
    ∃ a' d', fs.TagPreprocessor a f d = (true, a', d') ∧ a'.status = a.status := by
  cases htags : TagIndex.Tags fs.tagSep fs.tagFlags f with
  | none => exact ⟨a, { d with tags := none }, by simp [FieldSpec.TagPreprocessor, htags], rfl⟩
  | some ts =>
    cases hs : fs.IsSortable with
    | false =>
      exact ⟨a, { d with tags := some ts }, by simp [FieldSpec.TagPreprocessor, htags, hs], rfl⟩
    | true =>
      exact ⟨{ a with sv := a.sv.map (fun sv => sv.Put fs.sortIdx (RSSortable.str (f.text.getD ""))) },
        { d with tags := some ts }, by simp [FieldSpec.TagPreprocessor, htags, hs], rfl⟩

theorem numericPre_shape (fs : FieldSpec) (a : AddDocumentCtx) (f : DocumentField)
    (d : FieldIndexerData) :
    (∃ a' d', fs.NumericPreprocessor a f d = (true, a', d') ∧ a'.status = a.status) ∨
    fs.NumericPreprocessor a f d =
      (false, { a with status := a.status.SetCode QueryErrorCode.ENOTNUMERIC }, d) := by
  cases hp : parseDouble (f.text.getD "") with
  | none => right; simp [FieldSpec.NumericPreprocessor, hp]
  | some v =>
    left
    cases hs : fs.IsSortable with
    | false =>
      exact ⟨a, { d with numeric := v }, by simp [FieldSpec.NumericPreprocessor, hp, hs], rfl⟩
    | true =>
      exact ⟨{ a with sv := a.sv.map (fun sv => sv.Put fs.sortIdx (RSSortable.num v)) },
        { d with numeric := v }, by simp [FieldSpec.NumericPreprocessor, hp, hs], rfl⟩

theorem geoPre_shape (fs : FieldSpec) (a : AddDocumentCtx) (f : DocumentField)
    (d : FieldIndexerData) :
    (∃ d', fs.GeoPreprocessor a f d = (true, a, d')) ∨
    fs.GeoPreprocessor a f d =
      (false, { a with status := a.status.SetCode QueryErrorCode.EGEOFORMAT }, d) := by
  cases hp : splitAtDelim (f.text.getD "").data with
  | none => right; simp [FieldSpec.GeoPreprocessor, hp]
  | some p =>
    obtain ⟨lon, lat⟩ := p
    exact Or.inl ⟨{ d with geoSlon := String.mk lon, geoSlat := String.mk lat },
      by simp [FieldSpec.GeoPreprocessor, hp]⟩

theorem stepFulltext (cond : Bool) (fs : FieldSpec) (a : AddDocumentCtx)
    (f : DocumentField) (d : FieldIndexerData) :
    ∃ a', (if cond then fs.FulltextPreprocessor a f d else (true, a, d)) = (true, a', d) ∧
      a'.status = a.status := by
  cases cond with
  | false => exact ⟨a, rfl, rfl⟩
  | true => simpa using fulltextPre_shape fs a f d

theorem stepNumeric (cond : Bool) (fs : FieldSpec) (a : AddDocumentCtx)
    (f : DocumentField) (d : FieldIndexerData) :
    (∃ a' d', (if cond then fs.NumericPreprocessor a f d else (true, a, d)) = (true, a', d') ∧
       a'.status = a.status) ∨
    (if cond then fs.NumericPreprocessor a f d else (true, a, d)) =
      (false, { a with status := a.status.SetCode QueryErrorCode.ENOTNUMERIC }, d) := by
  cases cond with
  | false => exact Or.inl ⟨a, d, rfl, rfl⟩
  | true => simpa using numericPre_shape fs a f d

theorem stepGeo (cond : Bool) (fs : FieldSpec) (a : AddDocumentCtx)
    (f : DocumentField) (d : FieldIndexerData) :
    (∃ d', (if cond then fs.GeoPreprocessor a f d else (true, a, d)) = (true, a, d')) ∨
    (if cond then fs.GeoPreprocessor a f d else (true, a, d)) =
      (false, { a with status := a.status.SetCode QueryErrorCode.EGEOFORMAT }, d) := by
  cases cond with
  | false => exact Or.inl ⟨d, rfl⟩
  | true => simpa using geoPre_shape fs a f d

theorem stepTag (cond : Bool) (fs : FieldSpec) (a : AddDocumentCtx)
    (f : DocumentField) (d : FieldIndexerData) :
    ∃ a' d', (if cond then fs.TagPreprocessor a f d else (true, a, d)) = (true, a', d') ∧
      a'.status = a.status := by
  cases cond with
  | false => exact ⟨a, d, rfl, rfl⟩
  | true => simpa using tagPre_shape fs a f d

theorem addToIndexesLoop_spec (l : List (DocumentField × FieldSpec)) :
    ∀ (a : AddDocumentCtx) (i : Nat), a.status.code = QueryErrorCode.OK →
    ((Document.addToIndexesLoop a i l).ok = true →
       (Document.addToIndexesLoop a i l).finished = false ∧
       (Document.addToIndexesLoop a i l).indexed = true) ∧
    ((Document.addToIndexesLoop a i l).ok = false →
       (Document.addToIndexesLoop a i l).finished = true ∧
       (Document.addToIndexesLoop a i l).indexed = false ∧
       ((Document.addToIndexesLoop a i l).aCtx.status.code = QueryErrorCode.ENOTNUMERIC ∨
        (Document.addToIndexesLoop a i l).aCtx.status.code = QueryErrorCode.EGEOFORMAT)) := by
  induction l with
  | nil =>
    intro a i hok
    simp [Document.addToIndexesLoop]
  | cons p rest ih =>
    obtain ⟨ff, fs⟩ := p
    intro a i hok
    by_cases hskip : fs.name = "" ∨ ff.indexAs = 0
    · simp only [Document.addToIndexesLoop, if_pos hskip]
      exact ih a (i + 1) hok
    · simp only [Document.addToIndexesLoop, if_neg hskip]
      obtain ⟨a1, h1, hst1⟩ :=
        stepFulltext (ff.CheckIdx INDEXFLD_T_FULLTEXT) fs a ff (a.fdatas.getD i default)
      rw [h1]
      dsimp only
      have hok1 : a1.status.code = QueryErrorCode.OK := by rw [hst1]; exact hok
      rcases stepNumeric (ff.CheckIdx INDEXFLD_T_NUMERIC) fs a1 ff (a.fdatas.getD i default)
        with ⟨a2, d2, h2, hst2⟩ | h2
      · rw [h2]
        dsimp only
        have hok2 : a2.status.code = QueryErrorCode.OK := by rw [hst2]; exact hok1
        rcases stepGeo (ff.CheckIdx INDEXFLD_T_GEO) fs a2 ff d2 with ⟨d3, h3⟩ | h3
        · rw [h3]
          dsimp only
          obtain ⟨a4, d4, h4, hst4⟩ := stepTag (ff.CheckIdx INDEXFLD_T_TAG) fs a2 ff d3
          rw [h4]
          dsimp only
          have hok4 : a4.status.code = QueryErrorCode.OK := by rw [hst4]; exact hok2
          exact ih { a4 with fdatas := a4.fdatas.set i d4 } (i + 1) hok4
        · rw [h3]
          dsimp only
          have hne : (a2.status.SetCode QueryErrorCode.EGEOFORMAT).code ≠ QueryErrorCode.OK := by
            rw [QueryError.SetCode_of_ok hok2]
            decide
          constructor
          · intro hc
            simp [addToIndexesCleanup] at hc
          · intro _
            refine ⟨rfl, rfl, Or.inr ?_⟩
            show (((a2.status.SetCode QueryErrorCode.EGEOFORMAT)).SetCode
              QueryErrorCode.EGENERIC).code = QueryErrorCode.EGEOFORMAT
            rw [QueryError.SetCode_of_set hne, QueryError.SetCode_of_ok hok2]
      · rw [h2]
        dsimp only
        have hne : (a1.status.SetCode QueryErrorCode.ENOTNUMERIC).code ≠ QueryErrorCode.OK := by
          rw [QueryError.SetCode_of_ok hok1]
          decide
        constructor
        · intro hc
          simp [addToIndexesCleanup] at hc
        · intro _
          refine ⟨rfl, rfl, Or.inl ?_⟩
          show (((a1.status.SetCode QueryErrorCode.ENOTNUMERIC)).SetCode
            QueryErrorCode.EGENERIC).code = QueryErrorCode.ENOTNUMERIC
          rw [QueryError.SetCode_of_set hne, QueryError.SetCode_of_ok hok1]

/-- C1: starting from a clean status, a failing field preprocessor aborts the whole
document — `AddToIndexes` returns ERR without reaching the indexer and invokes
`Finish` — and the specific code the preprocessor set (`NOTNUMERIC` or `GEOFORMAT`)
survives the outer `SetCode(GENERIC)`, which only writes when no code is set yet, so
the final code is never the bare `GENERIC`. -/
theorem addToIndexes_failure_aborts (aCtx : AddDocumentCtx)
    (hok : aCtx.status.code = QueryErrorCode.OK) :
    ((Document.AddToIndexes aCtx).ok = false →
       (Document.AddToIndexes aCtx).finished = true ∧
       (Document.AddToIndexes aCtx).indexed = false ∧
       ((Document.AddToIndexes aCtx).aCtx.status.code = QueryErrorCode.ENOTNUMERIC ∨
        (Document.AddToIndexes aCtx).aCtx.status.code = QueryErrorCode.EGEOFORMAT) ∧
       (Document.AddToIndexes aCtx).aCtx.status.code ≠ QueryErrorCode.EGENERIC) ∧
    ((Document.AddToIndexes aCtx).ok = true →
       (Document.AddToIndexes aCtx).finished = false ∧
       (Document.AddToIndexes aCtx).indexed = true) ∧
    (∀ st : QueryError, st.code ≠ QueryErrorCode.OK →
       st.SetCode QueryErrorCode.EGENERIC = st) := by
  have h := addToIndexesLoop_spec (aCtx.doc.fields.zip aCtx.fspecs) aCtx 0 hok
  simp only [Document.AddToIndexes]
  refine ⟨?_, ?_, fun st hst => QueryError.SetCode_of_set hst⟩
  · intro hfail
    obtain ⟨hfin, hidx, hcode⟩ := h.2 hfail
    refine ⟨hfin, hidx, hcode, ?_⟩
    rcases hcode with hc | hc <;> rw [hc] <;> decide
  · exact h.1

/-- Witness for C1: a context whose single field is numeric with non-numeric text
aborts with `Finish` invoked and final code `NOTNUMERIC`, not `GENERIC`. -/
theorem addToIndexes_failure_aborts_witness :
    badNumericCtx.status.code = QueryErrorCode.OK ∧
    (Document.AddToIndexes badNumericCtx).ok = false ∧
    (Document.AddToIndexes badNumericCtx).finished = true ∧
    (Document.AddToIndexes badNumericCtx).indexed = false ∧
    (Document.AddToIndexes badNumericCtx).aCtx.status.code = QueryErrorCode.ENOTNUMERIC ∧
    (Document.AddToIndexes badNumericCtx).aCtx.status.code ≠ QueryErrorCode.EGENERIC := by
  have h := (addToIndexes_failure_aborts badNumericCtx rfl).1 (by decide)
  exact ⟨rfl, by decide, h.1, h.2.1, by decide, h.2.2.2⟩

theorem setDocLoop_ok_out (sp : IndexSpec) : ∀ (fl : List DocumentField) (dedupe : List Nat)
    {fsp : List FieldSpec} {out : List DocumentField} {nt : Nat} {ht ho so geo : Bool},
    AddDocumentCtx.setDocLoop sp dedupe fl = SetDocLoopRes.ok fsp out nt ht ho so geo →
    out = fl.map (resolveField sp) ∧
    ht = fl.any (fieldIsText sp) ∧
    ho = fl.any (fieldIsOther sp) ∧
    so = fl.any (fieldIsSortable sp) ∧
    (∀ f ∈ fl, fieldTypeOK sp f = true) := by
  intro fl
  induction fl with
  | nil =>
    intro dedupe fsp out nt ht ho so geo h
    simp only [AddDocumentCtx.setDocLoop, SetDocLoopRes.ok.injEq] at h
    obtain ⟨-, rfl, -, rfl, rfl, rfl, -⟩ := h
    simp
  | cons f rest ih =>
    intro dedupe fsp out nt ht ho so geo h
    rcases hg : sp.GetField f.name with _ | fs
    · simp only [AddDocumentCtx.setDocLoop, hg] at h
      cases hrec : AddDocumentCtx.setDocLoop sp dedupe rest with
      | err c m fsp' so' geo' => rw [hrec] at h; simp [SetDocLoopRes.prependSkipped] at h
      | ok fsp' out' nt' ht' ho' so' geo' =>
        rw [hrec] at h
        simp only [SetDocLoopRes.prependSkipped, SetDocLoopRes.ok.injEq] at h
        obtain ⟨-, rfl, rfl, rfl, rfl, rfl, -⟩ := h
        obtain ⟨hl, hht, hho, hso, hall⟩ := ih dedupe hrec
        refine ⟨?_, ?_, ?_, ?_, ?_⟩
        · simp [resolveField, hg, ← hl]
        · simp [fieldIsText, hg, hht]
        · simp [fieldIsOther, hg, hho]
        · simp [fieldIsSortable, hg, hso]
        · intro g hgm
          rcases List.mem_cons.mp hgm with rfl | hgm'
          · simp [fieldTypeOK, hg]
          · exact hall g hgm'
    · rcases htx : f.text with _ | txt
      · simp only [AddDocumentCtx.setDocLoop, hg, htx] at h
        cases hrec : AddDocumentCtx.setDocLoop sp dedupe rest with
        | err c m fsp' so' geo' => rw [hrec] at h; simp [SetDocLoopRes.prependSkipped] at h
        | ok fsp' out' nt' ht' ho' so' geo' =>
          rw [hrec] at h
          simp only [SetDocLoopRes.prependSkipped, SetDocLoopRes.ok.injEq] at h
          obtain ⟨-, rfl, rfl, rfl, rfl, rfl, -⟩ := h
          obtain ⟨hl, hht, hho, hso, hall⟩ := ih dedupe hrec
          refine ⟨?_, ?_, ?_, ?_, ?_⟩
          · simp [resolveField, hg, htx, ← hl]
          · simp [fieldIsText, hg, htx, hht]
          · simp [fieldIsOther, hg, htx, hho]
          · simp [fieldIsSortable, hg, htx, hso]
          · intro g hgm
            rcases List.mem_cons.mp hgm with rfl | hgm'
            · simp [fieldTypeOK, hg, htx]
            · exact hall g hgm'
      · by_cases hmem : fs.index ∈ dedupe
        · simp only [AddDocumentCtx.setDocLoop, hg, htx, if_pos hmem] at h
          exact absurd h (by simp)
        · by_cases hbad : f.indexAs ≠ 0 ∧ f.indexAs &&& fs.types ≠ f.indexAs
          · simp only [AddDocumentCtx.setDocLoop, hg, htx, if_neg hmem, if_pos hbad] at h
            exact absurd h (by simp)
          · simp only [AddDocumentCtx.setDocLoop, hg, htx, if_neg hmem, if_neg hbad] at h
            cases hrec : AddDocumentCtx.setDocLoop sp (dedupe ++ [fs.index]) rest with
            | err c m fsp' so' geo' =>
              rw [hrec] at h; simp [SetDocLoopRes.prependResolved] at h
            | ok fsp' out' nt' ht' ho' so' geo' =>
              rw [hrec] at h
              simp only [SetDocLoopRes.prependResolved, SetDocLoopRes.ok.injEq] at h
              obtain ⟨-, rfl, -, rfl, rfl, rfl, -⟩ := h
              obtain ⟨hl, hht, hho, hso, hall⟩ := ih (dedupe ++ [fs.index]) hrec
              have htype : fieldTypeOK sp f = true := by
                rcases Decidable.not_and_iff_or_not.mp hbad with hz | hland
                · have hz' : f.indexAs = 0 := by
                    by_contra hc
                    exact hz hc
                  simp [fieldTypeOK, hg, htx, hz']
                · have hland' : f.indexAs &&& fs.types = f.indexAs := by
                    by_contra hc
                    exact hland hc
                  simp [fieldTypeOK, hg, htx, hland']
              refine ⟨?_, ?_, ?_, ?_, ?_⟩
              · simp only [List.map_cons, resolveField, hg, htx, ← hl]
              · by_cases hz : f.indexAs = 0 <;>
                  simp [fieldIsText, hg, htx, hz, hht]
              · by_cases hz : f.indexAs = 0 <;>
                  simp [fieldIsOther, hg, htx, hz, hho]
              · simp [fieldIsSortable, hg, htx, hso, FieldSpec.IsSortable]
              · intro g hgm
                rcases List.mem_cons.mp hgm with rfl | hgm'
                · exact htype
                · exact hall g hgm'

theorem setDocLoop_dup (sp : IndexSpec) : ∀ (fl : List DocumentField) (dedupe : List Nat),
    dedupe.Nodup →
    (∀ f ∈ fl, fieldTypeOK sp f = true) →
    ¬ (dedupe ++ (resolvedSpecs sp fl).map FieldSpec.index).Nodup →
    ∃ fs, fs ∈ resolvedSpecs sp fl ∧
      (AddDocumentCtx.setDocLoop sp dedupe fl).errInfo =
        some (QueryErrorCode.EDUPFIELD, "Tried to insert `" ++ fs.name ++ "` twice") := by
  intro fl
  induction fl with
  | nil =>
    intro dedupe hnd htype hdup
    exact absurd (by simpa [resolvedSpecs] using hnd) hdup
  | cons f rest ih =>
    intro dedupe hnd htype hdup
    rcases hg : sp.GetField f.name with _ | fs
    · have hres : resolvedSpecs sp (f :: rest) = resolvedSpecs sp rest := by
        simp [resolvedSpecs, hg]
      rw [hres] at hdup
      obtain ⟨fs', hmem', heq'⟩ :=
        ih dedupe hnd (fun g hgm => htype g (by simp [hgm])) hdup
      refine ⟨fs', by rw [hres]; exact hmem', ?_⟩
      simp only [AddDocumentCtx.setDocLoop, hg, prependSkipped_errInfo]
      exact heq'
    · rcases htx : f.text with _ | txt
      · have hres : resolvedSpecs sp (f :: rest) = resolvedSpecs sp rest := by
          simp [resolvedSpecs, hg, htx]
        rw [hres] at hdup
        obtain ⟨fs', hmem', heq'⟩ :=
          ih dedupe hnd (fun g hgm => htype g (by simp [hgm])) hdup
        refine ⟨fs', by rw [hres]; exact hmem', ?_⟩
        simp only [AddDocumentCtx.setDocLoop, hg, htx, prependSkipped_errInfo]
        exact heq'
      · have hres : resolvedSpecs sp (f :: rest) = fs :: resolvedSpecs sp rest := by
          simp [resolvedSpecs, hg, htx]
        by_cases hmem : fs.index ∈ dedupe
        · refine ⟨fs, by rw [hres]; exact List.mem_cons_self _ _, ?_⟩
          simp only [AddDocumentCtx.setDocLoop, hg, htx, if_pos hmem, SetDocLoopRes.errInfo]
        · have htf : fieldTypeOK sp f = true := htype f (List.mem_cons_self _ _)
          have hbad : ¬(f.indexAs ≠ 0 ∧ f.indexAs &&& fs.types ≠ f.indexAs) := by
            simp only [fieldTypeOK, hg, htx, Bool.or_eq_true, beq_iff_eq] at htf
            rcases htf with hz | hl
            · exact fun hc => hc.1 hz
            · exact fun hc => hc.2 hl
          have hnd' : (dedupe ++ [fs.index]).Nodup := by
            simp [List.nodup_append, hnd, hmem]
          have hdup' :
              ¬ ((dedupe ++ [fs.index]) ++ (resolvedSpecs sp rest).map FieldSpec.index).Nodup := by
            rw [hres] at hdup
            simpa [List.append_assoc] using hdup
          obtain ⟨fs', hmem', heq'⟩ :=
            ih (dedupe ++ [fs.index]) hnd' (fun g hgm => htype g (by simp [hgm])) hdup'
          refine ⟨fs', by rw [hres]; exact List.mem_cons_of_mem _ hmem', ?_⟩
          simp only [AddDocumentCtx.setDocLoop, hg, htx, if_neg hmem, if_neg hbad,
            prependResolved_errInfo]
          exact heq'

theorem setDocLoop_unsupp (sp : IndexSpec) : ∀ (fl : List DocumentField) (dedupe : List Nat),
    (dedupe ++ (resolvedSpecs sp fl).map FieldSpec.index).Nodup →
    (∃ f ∈ fl, fieldTypeOK sp f = false) →
    ∃ fs, fs ∈ resolvedSpecs sp fl ∧
      (AddDocumentCtx.setDocLoop sp dedupe fl).errInfo =
        some (QueryErrorCode.EUNSUPPTYPE,
          "Tried to index field " ++ fs.name ++ " as type not specified in schema") := by
  intro fl
  induction fl with
  | nil =>
    intro dedupe hnd hbadf
    obtain ⟨f, hf, -⟩ := hbadf
    simp at hf
  | cons f rest ih =>
    intro dedupe hnd hbadf
    rcases hg : sp.GetField f.name with _ | fs
    · have hres : resolvedSpecs sp (f :: rest) = resolvedSpecs sp rest := by
        simp [resolvedSpecs, hg]
      rw [hres] at hnd
      have hbadf' : ∃ g ∈ rest, fieldTypeOK sp g = false := by
        obtain ⟨g, hgm, hgf⟩ := hbadf
        rcases List.mem_cons.mp hgm with rfl | hgm'
        · rw [show fieldTypeOK sp g = true by simp [fieldTypeOK, hg]] at hgf
          cases hgf
        · exact ⟨g, hgm', hgf⟩
      obtain ⟨fs', hmem', heq'⟩ := ih dedupe hnd hbadf'
      refine ⟨fs', by rw [hres]; exact hmem', ?_⟩
      simp only [AddDocumentCtx.setDocLoop, hg, prependSkipped_errInfo]
      exact heq'
    · rcases htx : f.text with _ | txt
      · have hres : resolvedSpecs sp (f :: rest) = resolvedSpecs sp rest := by
          simp [resolvedSpecs, hg, htx]
        rw [hres] at hnd
        have hbadf' : ∃ g ∈ rest, fieldTypeOK sp g = false := by
          obtain ⟨g, hgm, hgf⟩ := hbadf
          rcases List.mem_cons.mp hgm with rfl | hgm'
          · rw [show fieldTypeOK sp g = true by simp [fieldTypeOK, hg, htx]] at hgf
            cases hgf
          · exact ⟨g, hgm', hgf⟩
        obtain ⟨fs', hmem', heq'⟩ := ih dedupe hnd hbadf'
        refine ⟨fs', by rw [hres]; exact hmem', ?_⟩
        simp only [AddDocumentCtx.setDocLoop, hg, htx, prependSkipped_errInfo]
        exact heq'
      · have hres : resolvedSpecs sp (f :: rest) = fs :: resolvedSpecs sp rest := by
          simp [resolvedSpecs, hg, htx]
        rw [hres] at hnd
        have hmem : fs.index ∉ dedupe := by
          rw [List.nodup_append] at hnd
          exact fun hc => hnd.2.2 hc (List.mem_cons_self _ _)
        by_cases hbadh : fieldTypeOK sp f = false
        · have hbad : f.indexAs ≠ 0 ∧ f.indexAs &&& fs.types ≠ f.indexAs := by
            simp only [fieldTypeOK, hg, htx, Bool.or_eq_false_iff, beq_eq_false_iff_ne,
              ne_eq] at hbadh
            exact ⟨hbadh.1, hbadh.2⟩
          refine ⟨fs, by rw [hres]; exact List.mem_cons_self _ _, ?_⟩
          simp only [AddDocumentCtx.setDocLoop, hg, htx, if_neg hmem, if_pos hbad,
            SetDocLoopRes.errInfo]
        · have hbad : ¬(f.indexAs ≠ 0 ∧ f.indexAs &&& fs.types ≠ f.indexAs) := by
            have htf : fieldTypeOK sp f = true := by
              cases hv : fieldTypeOK sp f
              · exact absurd hv hbadh
              · rfl
            simp only [fieldTypeOK, hg, htx, Bool.or_eq_true, beq_iff_eq] at htf
            rcases htf with hz | hl
            · exact fun hc => hc.1 hz
            · exact fun hc => hc.2 hl
          have hbadf' : ∃ g ∈ rest, fieldTypeOK sp g = false := by
            obtain ⟨g, hgm, hgf⟩ := hbadf
            rcases List.mem_cons.mp hgm with rfl | hgm'
            · exact absurd hgf hbadh
            · exact ⟨g, hgm', hgf⟩
          have hnd' :
              ((dedupe ++ [fs.index]) ++ (resolvedSpecs sp rest).map FieldSpec.index).Nodup := by
            rw [List.append_assoc]
            simpa using hnd
          obtain ⟨fs', hmem', heq'⟩ := ih (dedupe ++ [fs.index]) hnd' hbadf'
          refine ⟨fs', by rw [hres]; exact List.mem_cons_of_mem _ hmem', ?_⟩
          simp only [AddDocumentCtx.setDocLoop, hg, htx, if_neg hmem, if_neg hbad,
            prependResolved_errInfo]
          exact heq'

/-- C4: when two fields of an otherwise well-typed document resolve to the same
`FieldSpec.index`, `SetDocument` fails with `DUPFIELD` and the exact message
"Tried to insert `<name>` twice" for the duplicated spec's name, returning before any
field is indexed — in particular the sort vector is untouched. -/
theorem setDocument_dupfield (ctx : AddDocumentCtx) (sp : IndexSpec) (d : Document)
    (n : Nat) (hok : ctx.status.code = QueryErrorCode.OK)
    (htype : ∀ f ∈ d.fields, fieldTypeOK sp f = true)
    (hdup : ¬ ((resolvedSpecs sp d.fields).map FieldSpec.index).Nodup) :
    (ctx.SetDocument sp d n).1 = false ∧
    (ctx.SetDocument sp d n).2.status.code = QueryErrorCode.EDUPFIELD ∧
    (∃ fs ∈ resolvedSpecs sp d.fields,
       (ctx.SetDocument sp d n).2.status.detail =
         some ("Tried to insert `" ++ fs.name ++ "` twice")) ∧
    (ctx.SetDocument sp d n).2.sv = ctx.sv := by
  have hdup' : ¬ (([] : List Nat) ++ (resolvedSpecs sp d.fields).map FieldSpec.index).Nodup := by
    simpa using hdup
  obtain ⟨fs, hmem, herr⟩ := setDocLoop_dup sp d.fields [] List.nodup_nil htype hdup'
  cases hloop : AddDocumentCtx.setDocLoop sp [] d.fields with
  | ok fsp out nt ht ho so geo =>
    rw [hloop] at herr
    simp [SetDocLoopRes.errInfo] at herr
  | err c m fsp so geo =>
    rw [hloop] at herr
    simp only [SetDocLoopRes.errInfo, Option.some.injEq, Prod.mk.injEq] at herr
    obtain ⟨rfl, rfl⟩ := herr
    simp only [AddDocumentCtx.SetDocument, hloop]
    refine ⟨by trivial, ?_, ⟨fs, hmem, ?_⟩, by trivial⟩
    · simp [QueryError.SetErrorFmt, hok]
    · simp [QueryError.SetErrorFmt, hok]

/-- Witness for C4: delivering `title` twice against the one-field schema fails with
`DUPFIELD` and the exact message. -/
theorem setDocument_dupfield_witness :
    (freshAddDocumentCtx.SetDocument spTitleOnly dDupTitleDoc 0).1 = false ∧
    (freshAddDocumentCtx.SetDocument spTitleOnly dDupTitleDoc 0).2.status.code =
      QueryErrorCode.EDUPFIELD ∧
    (freshAddDocumentCtx.SetDocument spTitleOnly dDupTitleDoc 0).2.status.detail =
      some "Tried to insert `title` twice" := by
  have h := setDocument_dupfield freshAddDocumentCtx spTitleOnly dDupTitleDoc 0 rfl
    (by decide) (by decide)
  exact ⟨h.1, h.2.1, by decide⟩

/-- C5: on success every field's resolved `indexAs` is a subset of its spec's `types`
(an unspecified mask defaulting to exactly `fs.types`), and a well-deduped document
containing a field whose caller-specified mask exceeds its spec's types is rejected
with `UNSUPPTYPE`. -/
theorem setDocument_indexAs_resolution (ctx : AddDocumentCtx) (sp : IndexSpec)
    (d : Document) (n : Nat) (hok : ctx.status.code = QueryErrorCode.OK) :
    ((ctx.SetDocument sp d n).1 = true →
       (ctx.SetDocument sp d n).2.doc.fields = d.fields.map (resolveField sp) ∧
       (∀ f ∈ d.fields, ∀ fs, sp.GetField f.name = some fs → f.text ≠ none →
          (resolveField sp f).indexAs &&& fs.types = (resolveField sp f).indexAs ∧
          (f.indexAs = 0 → (resolveField sp f).indexAs = fs.types))) ∧
    (((resolvedSpecs sp d.fields).map FieldSpec.index).Nodup →
       (∃ f ∈ d.fields, fieldTypeOK sp f = false) →
       (ctx.SetDocument sp d n).1 = false ∧
       (ctx.SetDocument sp d n).2.status.code = QueryErrorCode.EUNSUPPTYPE) := by
  constructor
  · intro hsucc
    cases hloop : AddDocumentCtx.setDocLoop sp [] d.fields with
    | err c m fsp so geo =>
      rw [show (ctx.SetDocument sp d n).1 = false by
        simp only [AddDocumentCtx.SetDocument, hloop]] at hsucc
      cases hsucc
    | ok fsp out nt ht ho so geo =>
      obtain ⟨hout, -, -, -, hall⟩ := setDocLoop_ok_out sp d.fields [] hloop
      constructor
      · simp only [AddDocumentCtx.SetDocument, hloop]
        exact hout
      · intro f hf fs hgf htxt
        have htf : fieldTypeOK sp f = true := hall f hf
        rcases htx2 : f.text with _ | txt
        · exact absurd htx2 htxt
        · by_cases hz : f.indexAs = 0
          · refine ⟨?_, fun _ => ?_⟩
            · simp [resolveField, hgf, htx2, hz]
            · simp [resolveField, hgf, htx2, hz]
          · have hland : f.indexAs &&& fs.types = f.indexAs := by
              simp only [fieldTypeOK, hgf, htx2, Bool.or_eq_true, beq_iff_eq] at htf
              rcases htf with h0 | hl
              · exact absurd h0 hz
              · exact hl
            refine ⟨?_, fun h0 => absurd h0 hz⟩
            simp [resolveField, hgf, htx2, hz, hland]
  · intro hnd hviol
    have hnd' : (([] : List Nat) ++ (resolvedSpecs sp d.fields).map FieldSpec.index).Nodup := by
      simpa using hnd
    obtain ⟨fs, hmem, herr⟩ := setDocLoop_unsupp sp d.fields [] hnd' hviol
    cases hloop : AddDocumentCtx.setDocLoop sp [] d.fields with
    | ok fsp out nt ht ho so geo =>
      rw [hloop] at herr
      simp [SetDocLoopRes.errInfo] at herr
    | err c m fsp so geo =>
      rw [hloop] at herr
      simp only [SetDocLoopRes.errInfo, Option.some.injEq, Prod.mk.injEq] at herr
      obtain ⟨rfl, rfl⟩ := herr
      simp only [AddDocumentCtx.SetDocument, hloop]
      exact ⟨by trivial, by simp [QueryError.SetErrorFmt, hok]⟩

/-- Witness for C5: the accepted `title` document resolves its unspecified mask to the
schema's types, and asking to index `title` as NUMERIC is rejected with
`UNSUPPTYPE`. -/
theorem setDocument_indexAs_resolution_witness :
    (freshAddDocumentCtx.SetDocument spTitleOnly dTitleDoc 0).2.doc.fields =
      dTitleDoc.fields.map (resolveField spTitleOnly) ∧
    (freshAddDocumentCtx.SetDocument spTitleOnly dBadTypeDoc 0).1 = false ∧
    (freshAddDocumentCtx.SetDocument spTitleOnly dBadTypeDoc 0).2.status.code =
      QueryErrorCode.EUNSUPPTYPE := by
  have h1 := (setDocument_indexAs_resolution freshAddDocumentCtx spTitleOnly dTitleDoc 0
    rfl).1 (by decide)
  have h2 := (setDocument_indexAs_resolution freshAddDocumentCtx spTitleOnly dBadTypeDoc 0
    rfl).2 (by decide) (by decide)
  exact ⟨h1.1, h2.1, h2.2⟩

theorem setDocLoop_map_resolve (sp : IndexSpec) : ∀ (fl : List DocumentField)
    (dedupe : List Nat) {fsp : List FieldSpec} {out : List DocumentField} {nt : Nat}
    {ht ho so geo : Bool},
    AddDocumentCtx.setDocLoop sp dedupe fl = SetDocLoopRes.ok fsp out nt ht ho so geo →
    AddDocumentCtx.setDocLoop sp dedupe (fl.map (resolveField sp)) =
      SetDocLoopRes.ok fsp out nt ht ho so geo := by
  intro fl
  induction fl with
  | nil =>
    intro dedupe fsp out nt ht ho so geo h
    simpa using h
  | cons f rest ih =>
    obtain ⟨nm, tx0, ia⟩ := f
    intro dedupe fsp out nt ht ho so geo h
    rcases hg : sp.GetField nm with _ | fs
    · have hrf : resolveField sp ⟨nm, tx0, ia⟩ = ⟨nm, tx0, ia⟩ := by
        simp [resolveField, hg]
      simp only [AddDocumentCtx.setDocLoop, hg] at h
      cases hrec : AddDocumentCtx.setDocLoop sp dedupe rest with
      | err c m fsp' so' geo' =>
        rw [hrec] at h
        simp [SetDocLoopRes.prependSkipped] at h
      | ok fsp' out' nt' ht' ho' so' geo' =>
        rw [hrec] at h
        rw [List.map_cons, hrf]
        simp only [AddDocumentCtx.setDocLoop, hg]
        rw [ih dedupe hrec]
        exact h
    · rcases tx0 with _ | txt
      · have hrf : resolveField sp ⟨nm, none, ia⟩ = ⟨nm, none, ia⟩ := by
          simp [resolveField, hg]
        simp only [AddDocumentCtx.setDocLoop, hg] at h
        cases hrec : AddDocumentCtx.setDocLoop sp dedupe rest with
        | err c m fsp' so' geo' =>
          rw [hrec] at h
          simp [SetDocLoopRes.prependSkipped] at h
        | ok fsp' out' nt' ht' ho' so' geo' =>
          rw [hrec] at h
          rw [List.map_cons, hrf]
          simp only [AddDocumentCtx.setDocLoop, hg]
          rw [ih dedupe hrec]
          exact h
      · by_cases hmem : fs.index ∈ dedupe
        · simp only [AddDocumentCtx.setDocLoop, hg, if_pos hmem] at h
          exact absurd h (by simp)
        · by_cases hbad : ia ≠ 0 ∧ ia &&& fs.types ≠ ia
          · simp only [AddDocumentCtx.setDocLoop, hg, if_neg hmem, if_pos hbad] at h
            exact absurd h (by simp)
          · simp only [AddDocumentCtx.setDocLoop, hg, if_neg hmem, if_neg hbad] at h
            cases hrec : AddDocumentCtx.setDocLoop sp (dedupe ++ [fs.index]) rest with
            | err c m fsp' so' geo' =>
              rw [hrec] at h
              simp [SetDocLoopRes.prependResolved] at h
            | ok fsp' out' nt' ht' ho' so' geo' =>
              rw [hrec] at h
              by_cases hz : ia = 0
              · subst hz
                have hrf : resolveField sp ⟨nm, some txt, 0⟩ = ⟨nm, some txt, fs.types⟩ := by
                  simp [resolveField, hg]
                have hland : fs.types &&& fs.types = fs.types := by simp
                have hbad2 : ¬(fs.types ≠ 0 ∧ fs.types &&& fs.types ≠ fs.types) := by
                  simp [hland]
                rw [List.map_cons, hrf]
                simp only [AddDocumentCtx.setDocLoop, hg, if_neg hmem, if_neg hbad2]
                rw [ih (dedupe ++ [fs.index]) hrec]
                simpa [ite_self] using h
              · have hrf : resolveField sp ⟨nm, some txt, ia⟩ = ⟨nm, some txt, ia⟩ := by
                  simp [resolveField, hg, hz]
                rw [List.map_cons, hrf]
                simp only [AddDocumentCtx.setDocLoop, hg, if_neg hmem, if_neg hbad]
                rw [ih (dedupe ++ [fs.index]) hrec]
                simpa [ite_self] using h

theorem setDocument_stable (ctx2 : AddDocumentCtx) (sp : IndexSpec) (n : Nat)
    {fsp : List FieldSpec} {out : List DocumentField} {nt : Nat} {ht ho so geo : Bool}
    (hl : AddDocumentCtx.setDocLoop sp [] ctx2.doc.fields =
      SetDocLoopRes.ok fsp out nt ht ho so geo)
    (hix : ctx2.stateFlags.indexables = (ht || ho))
    (htx : ctx2.stateFlags.textindexed = !ht)
    (hox : ctx2.stateFlags.otherindexed = !ho)
    (hsx : ctx2.stateFlags.sortables = so)
    (hex : ctx2.stateFlags.empty = (ctx2.sv.isNone && !ht && !ho))
    (hsvx : so = true → ctx2.sv.isNone = false) :
    (ctx2.SetDocument sp ctx2.doc n).2.stateFlags = ctx2.stateFlags := by
  obtain ⟨⟨i, t, o, s, e⟩, st, sv, dfl, fsps, fds, dc⟩ := ctx2
  simp only at hl hix htx hox hsx hex hsvx
  subst hix htx hox hsx hex
  simp only [AddDocumentCtx.SetDocument, hl, StateFlags.clearIndexFlags]
  have hcond : ((s || s) && sv.isNone) = false := by
    cases hs2 : s
    · simp
    · simp [hsvx hs2]
  simp only [hcond, Bool.false_eq_true, if_false]
  cases hsvn : sv.isNone <;> cases ht <;> cases ho <;> simp

/-- C8 counterexample: the same `(spec, doc, oldFieldCount)` triple applied to a fresh
context and to a context carrying stale flags yields different state flags from two
successful `SetDocument` calls, and on the stale context `EMPTY` holds although a text
field is present — so `SetDocument` is not a pure function of `(spec, doc,
oldFieldCount)` and the claimed `EMPTY` equivalence fails. -/
theorem setDocument_purity_cex :
    (staleFlagsCtx.SetDocument spTitleOnly dTitleDoc 0).2.stateFlags ≠
      (freshAddDocumentCtx.SetDocument spTitleOnly dTitleDoc 0).2.stateFlags ∧
    (staleFlagsCtx.SetDocument spTitleOnly dTitleDoc 0).1 = true ∧
    (freshAddDocumentCtx.SetDocument spTitleOnly dTitleDoc 0).1 = true ∧
    (staleFlagsCtx.SetDocument spTitleOnly dTitleDoc 0).2.stateFlags.empty = true ∧
    docHasTextField spTitleOnly dTitleDoc = true := by
  refine ⟨by decide, by decide, by decide, by decide, by decide⟩

/-- C8 (amended): on a context in the fresh constructor state (all flags clear, no sort
vector), the resulting state flags are a function of `(spec, doc)` alone;
`INDEXABLES` holds iff a text- or other-indexable field is present, `TEXTINDEXED` iff
no text field, `OTHERINDEXED` iff no other field, and `EMPTY` iff the resulting sort
vector is absent and neither kind of field is present; and a repeated `SetDocument` on
the resulting context yields identical flags. -/
theorem setDocument_flags_fresh (ctx : AddDocumentCtx) (sp : IndexSpec) (d : Document)
    (n : Nat) (hflags : ctx.stateFlags = freshStateFlags) (hsv : ctx.sv = none) :
    (∀ (ctx' : AddDocumentCtx) (n' : Nat), ctx'.stateFlags = freshStateFlags →
       ctx'.sv = none →
       (ctx'.SetDocument sp d n').2.stateFlags = (ctx.SetDocument sp d n).2.stateFlags) ∧
    ((ctx.SetDocument sp d n).1 = true →
       (ctx.SetDocument sp d n).2.stateFlags.indexables =
         (docHasTextField sp d || docHasOtherField sp d) ∧
       (ctx.SetDocument sp d n).2.stateFlags.textindexed = !docHasTextField sp d ∧
       (ctx.SetDocument sp d n).2.stateFlags.otherindexed = !docHasOtherField sp d ∧
       (ctx.SetDocument sp d n).2.stateFlags.empty =
         ((ctx.SetDocument sp d n).2.sv.isNone && !docHasTextField sp d &&
           !docHasOtherField sp d)) ∧
    ((ctx.SetDocument sp d n).1 = true →
       ((ctx.SetDocument sp d n).2.SetDocument sp (ctx.SetDocument sp d n).2.doc n).2.stateFlags
         = (ctx.SetDocument sp d n).2.stateFlags) := by
  cases hloop : AddDocumentCtx.setDocLoop sp [] d.fields with
  | err c m fsp so geo =>
    refine ⟨?_, ?_, ?_⟩
    · intro ctx' n' hflags' hsv'
      simp only [AddDocumentCtx.SetDocument, hloop, StateFlags.clearIndexFlags, hflags,
        hflags']
    · intro hc
      rw [show (ctx.SetDocument sp d n).1 = false by
        simp only [AddDocumentCtx.SetDocument, hloop]] at hc
      cases hc
    · intro hc
      rw [show (ctx.SetDocument sp d n).1 = false by
        simp only [AddDocumentCtx.SetDocument, hloop]] at hc
      cases hc
  | ok fsp out nt ht ho so geo =>
    obtain ⟨hout, hht, hho, hso, -⟩ := setDocLoop_ok_out sp d.fields [] hloop
    refine ⟨?_, ?_, ?_⟩
    · intro ctx' n' hflags' hsv'
      simp only [AddDocumentCtx.SetDocument, hloop, StateFlags.clearIndexFlags, hflags,
        hflags', hsv, hsv']
    · intro _
      have hht' : docHasTextField sp d = ht := by rw [docHasTextField, ← hht]
      have hho' : docHasOtherField sp d = ho := by rw [docHasOtherField, ← hho]
      rw [hht', hho']
      simp only [AddDocumentCtx.SetDocument, hloop, StateFlags.clearIndexFlags, hflags,
        hsv, freshStateFlags]
      split_ifs <;> simp_all
    · intro _
      have hfields : (ctx.SetDocument sp d n).2.doc.fields = d.fields.map (resolveField sp) := by
        simp only [AddDocumentCtx.SetDocument, hloop]
        exact hout
      have hloop2 : AddDocumentCtx.setDocLoop sp []
          ((ctx.SetDocument sp d n).2.doc.fields) = SetDocLoopRes.ok fsp out nt ht ho so geo := by
        rw [hfields]
        exact setDocLoop_map_resolve sp d.fields [] hloop
      refine setDocument_stable _ sp n hloop2 ?_ ?_ ?_ ?_ ?_ ?_
      · simp only [AddDocumentCtx.SetDocument, hloop, StateFlags.clearIndexFlags, hflags,
          hsv, freshStateFlags]
        split_ifs <;> simp
      · simp only [AddDocumentCtx.SetDocument, hloop, StateFlags.clearIndexFlags, hflags,
          hsv, freshStateFlags]
        split_ifs <;> simp
      · simp only [AddDocumentCtx.SetDocument, hloop, StateFlags.clearIndexFlags, hflags,
          hsv, freshStateFlags]
        split_ifs <;> simp
      · simp only [AddDocumentCtx.SetDocument, hloop, StateFlags.clearIndexFlags, hflags,
          hsv, freshStateFlags]
        split_ifs <;> simp
      · simp only [AddDocumentCtx.SetDocument, hloop, StateFlags.clearIndexFlags, hflags,
          hsv, freshStateFlags]
        split_ifs <;> simp_all
      · intro hso'
        simp only [AddDocumentCtx.SetDocument, hloop, StateFlags.clearIndexFlags, hflags,
          hsv, freshStateFlags]
        split_ifs with h1 <;> simp_all

/-- Witness for C8 (amended): a fresh context ingesting the text-only document computes
`INDEXABLES` set, `TEXTINDEXED` clear, `OTHERINDEXED` set and `EMPTY` clear, and a
second call on the resulting context leaves the flags unchanged. -/
theorem setDocument_flags_fresh_witness :
    (freshAddDocumentCtx.SetDocument spTitleOnly dTitleDoc 0).2.stateFlags.indexables =
      (docHasTextField spTitleOnly dTitleDoc || docHasOtherField spTitleOnly dTitleDoc) ∧
    (((freshAddDocumentCtx.SetDocument spTitleOnly dTitleDoc 0).2.SetDocument spTitleOnly
        (freshAddDocumentCtx.SetDocument spTitleOnly dTitleDoc 0).2.doc 0).2.stateFlags =
      (freshAddDocumentCtx.SetDocument spTitleOnly dTitleDoc 0).2.stateFlags) := by
  have h := setDocument_flags_fresh freshAddDocumentCtx spTitleOnly dTitleDoc 0 rfl rfl
  exact ⟨(h.2.1 (by decide)).1, h.2.2 (by decide)⟩

end RediSearch

